import Mathlib

/- Formal model of the ChittyCan Notion to GitHub sync engine
   (scripts/notion-github-sync.ts of chittyapps/chittyreception).

   Timestamps: the script stores timestamps as strings and converts them with
   JavaScript Date parsing (new Date(s).getTime()).  The model works at the
   level of the parsed values: a timestamp is an `Option Int`, where `some t`
   is a finite millisecond value and `none` is the NaN produced by an
   unparseable string.  Every JavaScript numeric comparison involving NaN is
   false, which `jsGt` reproduces.  Date.prototype.toISOString throws a
   RangeError on a NaN time value; `toISOStringJs` reproduces the throw and
   abstracts the calendar rendering of a finite value to its decimal form,
   which no claim inspects. -/

/-- JavaScript numeric strict greater-than where `none` stands for NaN:
any comparison with NaN evaluates to false. -/
def jsGt : Option Int → Option Int → Bool
  | some a, some b => decide (b < a)
  | _, _ => false

/-- Truthiness of an optional JavaScript string: undefined/null and the empty
string are falsy, every other string is truthy. -/
def jsTruthyStr : Option String → Bool
  | none => false
  | some s => decide (s ≠ "")

/-- Truthiness of an optional JavaScript number: undefined/null, NaN and 0 are
falsy (NaN is represented by `none` here, so the numeric case only tests 0). -/
def jsTruthyInt : Option Int → Bool
  | none => false
  | some n => decide (n ≠ 0)

/-- JavaScript `a || b` on strings: the empty string is falsy. -/
def jsOrStr (a b : String) : String :=
  if a = "" then b else a

/-- Model of Date.prototype.toISOString: throws a RangeError on an invalid
date (NaN time value, `none`); the calendar rendering of a finite value is
abstracted to its decimal form, which no claim inspects. -/
def toISOStringJs : Option Int → Except String String
  | none => Except.error "RangeError: Invalid time value"
  | some t => Except.ok (toString t)

/-- Sync directions of the engine; the source represents them as the strings
notion-to-github (the spec's LeftToRight), github-to-notion (RightToLeft)
and conflict. -/
inductive SyncDirection where
  | notionToGithub
  | githubToNotion
  | conflict
  deriving DecidableEq

/-- String rendering of a direction, as the source's union-typed field. -/
def dirString : SyncDirection → String
  | SyncDirection.notionToGithub => "notion-to-github"
  | SyncDirection.githubToNotion => "github-to-notion"
  | SyncDirection.conflict => "conflict"

/-- SyncState record of the source: a direction plus a human-readable reason. -/
structure SyncState where
  direction : SyncDirection
  reason : String
  deriving DecidableEq

/-- Last-sync fallback of the source: `lastSyncAt ? new Date(lastSyncAt).getTime() : 0`.
The outer option is field presence, the inner option is parse success. -/
def lastSyncOf : Option (Option Int) → Option Int
  | some t => t
  | none => some 0

/-- SyncEngine.determineSyncDirection: pure decision from the two updatedAt
values and the stored lastSyncAt.  The value lives in `Except` because the
reason strings are built with toISOString, which throws on NaN; the theorems
show the error branch is unreachable. -/
def determineSyncDirection (notionUpdatedAt githubUpdatedAt : Option Int)
    (lastSyncAt : Option (Option Int)) : Except String SyncState :=
  let notionTime := notionUpdatedAt
  let githubTime := githubUpdatedAt
  let lastSync := lastSyncOf lastSyncAt
  let notionChangedSinceSync := jsGt notionTime lastSync
  let githubChangedSinceSync := jsGt githubTime lastSync
  if notionChangedSinceSync && githubChangedSinceSync then do
    let n ← toISOStringJs notionTime
    let g ← toISOStringJs githubTime
    Except.ok ⟨SyncDirection.conflict,
      "Both updated since last sync (Notion: " ++ n ++ ", GitHub: " ++ g ++ ")" ⟩
  else if notionChangedSinceSync then do
    let n ← toISOStringJs notionTime
    Except.ok ⟨SyncDirection.notionToGithub, "Notion updated at " ++ n ⟩
  else if githubChangedSinceSync then do
    let g ← toISOStringJs githubTime
    Except.ok ⟨SyncDirection.githubToNotion, "GitHub updated at " ++ g ⟩
  else
    Except.ok ⟨SyncDirection.notionToGithub, "No changes detected, defaulting to Notion" ⟩

/-- Direction component of a decision, `none` when the computation threw. -/
def dirOf : Except String SyncState → Option SyncDirection
  | Except.ok st => some st.direction
  | Except.error _ => none

/-- Rendering of a parsed timestamp used in reason strings; only reached on
finite values in the source, so the NaN case is an arbitrary placeholder. -/
def optToString : Option Int → String
  | some t => toString t
  | none => ""

/-- Closed form of the decision: the same four-branch rule, with the throwing
ISO rendering replaced by the total rendering, legitimate because a branch
only renders a side whose change test passed and hence is finite. -/
def syncStateOf (nt gt : Option Int) (ls : Option (Option Int)) : SyncState :=
  let lastSync := lastSyncOf ls
  if jsGt nt lastSync && jsGt gt lastSync then
    ⟨SyncDirection.conflict,
      "Both updated since last sync (Notion: " ++ optToString nt ++
        ", GitHub: " ++ optToString gt ++ ")" ⟩
  else if jsGt nt lastSync then
    ⟨SyncDirection.notionToGithub, "Notion updated at " ++ optToString nt ⟩
  else if jsGt gt lastSync then
    ⟨SyncDirection.githubToNotion, "GitHub updated at " ++ optToString gt ⟩
  else
    ⟨SyncDirection.notionToGithub, "No changes detected, defaulting to Notion" ⟩

/-- The decision never throws and equals its closed form. -/
lemma determineSyncDirection_eq (nt gt : Option Int) (ls : Option (Option Int)) :
    determineSyncDirection nt gt ls = Except.ok (syncStateOf nt gt ls) := by
  simp only [determineSyncDirection, syncStateOf]
  cases hl : lastSyncOf ls with
  | none =>
    rcases nt with _ | n <;> rcases gt with _ | g <;> simp [jsGt]
  | some l =>
    rcases nt with _ | n <;> rcases gt with _ | g
    · simp [jsGt]
    · by_cases hg : l < g <;>
        simp [jsGt, hg, toISOStringJs, Bind.bind, Except.bind, optToString]
    · by_cases hn : l < n <;>
        simp [jsGt, hn, toISOStringJs, Bind.bind, Except.bind, optToString]
    · by_cases hn : l < n <;> by_cases hg : l < g <;>
        simp [jsGt, hn, hg, toISOStringJs, Bind.bind, Except.bind, optToString]

/-- Left-right swap on directions, fixing conflict. -/
def swapDir : SyncDirection → SyncDirection
  | SyncDirection.notionToGithub => SyncDirection.githubToNotion
  | SyncDirection.githubToNotion => SyncDirection.notionToGithub
  | SyncDirection.conflict => SyncDirection.conflict

/-- Direction rule exactly as section 4.3 of the spec words it, over plain
integer timestamps with a missing checkpoint taken as epoch 0. -/
def specDirection (leftUpdatedAt rightUpdatedAt : Int) (lastSyncAt : Option Int) :
    SyncDirection :=
  let lastSync := lastSyncAt.getD 0
  let leftChanged := decide (lastSync < leftUpdatedAt)
  let rightChanged := decide (lastSync < rightUpdatedAt)
  if leftChanged && rightChanged then SyncDirection.conflict
  else if leftChanged then SyncDirection.notionToGithub
  else if rightChanged then SyncDirection.githubToNotion
  else SyncDirection.notionToGithub

/- Status mapping tables of the source.  NOTION_TO_GITHUB_STATUS is a
JavaScript record, so lookup of an unknown key yields undefined; every use
site appends a fallback to OPEN, captured by trackerStatusToBoardState.
GITHUB_TO_NOTION_STATUS is total on the two-valued issue state. -/

/-- GitHub issue state, the Board side's two-valued status model. -/
inductive IssueState where
  | OPEN
  | CLOSED
  deriving DecidableEq

/-- NOTION_TO_GITHUB_STATUS lookup table of the source. -/
def NOTION_TO_GITHUB_STATUS (s : String) : Option IssueState :=
  if s = "Not Started" then some IssueState.OPEN
  else if s = "In Progress" then some IssueState.OPEN
  else if s = "Blocked" then some IssueState.OPEN
  else if s = "On Hold" then some IssueState.OPEN
  else if s = "Completed" then some IssueState.CLOSED
  else if s = "Cancelled" then some IssueState.CLOSED
  else none

/-- GITHUB_TO_NOTION_STATUS lookup table of the source. -/
def GITHUB_TO_NOTION_STATUS : IssueState → String
  | IssueState.OPEN => "In Progress"
  | IssueState.CLOSED => "Completed"

/-- Tracker-to-Board translation as the engine applies it:
NOTION_TO_GITHUB_STATUS[status] || OPEN. -/
def trackerStatusToBoardState (s : String) : IssueState :=
  (NOTION_TO_GITHUB_STATUS s).getD IssueState.OPEN

/-- Board-to-Tracker translation (the spec's boardStateToTrackerStatus). -/
def boardStateToTrackerStatus (b : IssueState) : String :=
  GITHUB_TO_NOTION_STATUS b

/-- Tracker status vocabulary, the key set of NOTION_TO_GITHUB_STATUS. -/
def trackerVocabulary : List String :=
  ["Not Started", "In Progress", "Blocked", "On Hold", "Completed", "Cancelled"]

/-- Decisions never throw: the ISO rendering inside a reason is only reached
for a side whose comparison against the checkpoint succeeded, hence a finite
time value. -/
lemma determineSyncDirection_isOk (nt gt : Option Int) (ls : Option (Option Int)) :
    ∃ st, determineSyncDirection nt gt ls = Except.ok st :=
  ⟨syncStateOf nt gt ls, determineSyncDirection_eq nt gt ls⟩

/-- C1: on parseable timestamps the decision is exactly the spec's direction
table, and the full result, reasons included, matches the four-branch rule
with a missing lastSyncAt taken as epoch 0. -/
theorem c1_direction_decision (nt gt : Int) (ls : Option Int) :
    determineSyncDirection (some nt) (some gt) (Option.map some ls) =
      Except.ok
        (if ls.getD 0 < nt ∧ ls.getD 0 < gt then
          ⟨SyncDirection.conflict,
            "Both updated since last sync (Notion: " ++ toString nt ++
              ", GitHub: " ++ toString gt ++ ")" ⟩
        else if ls.getD 0 < nt then
          ⟨SyncDirection.notionToGithub, "Notion updated at " ++ toString nt ⟩
        else if ls.getD 0 < gt then
          ⟨SyncDirection.githubToNotion, "GitHub updated at " ++ toString gt ⟩
        else
          ⟨SyncDirection.notionToGithub, "No changes detected, defaulting to Notion" ⟩)
    ∧ dirOf (determineSyncDirection (some nt) (some gt) (Option.map some ls)) =
        some (specDirection nt gt ls) := by
  have hls : lastSyncOf (Option.map some ls) = some (ls.getD 0) := by
    cases ls <;> simp [lastSyncOf]
  rw [determineSyncDirection_eq]
  simp only [syncStateOf, specDirection]
  rw [hls]
  constructor
  · by_cases hn : ls.getD 0 < nt <;> by_cases hg : ls.getD 0 < gt <;>
      simp [jsGt, hn, hg, optToString]
  · by_cases hn : ls.getD 0 < nt <;> by_cases hg : ls.getD 0 < gt <;>
      simp [jsGt, hn, hg, optToString, dirOf]

/-- C3 counterexample: at equal timestamps with an equal checkpoint neither
side has changed, both argument orders yield the default notion-to-github
direction, and swapping the result does not give back the same direction, so
the claimed swap symmetry fails on the no-change default branch. -/
theorem c3_swap_symmetry_counterexample :
    dirOf (determineSyncDirection (some 0) (some 0) (some (some 0))) ≠
      Option.map swapDir
        (dirOf (determineSyncDirection (some 0) (some 0) (some (some 0)))) := by
  decide

/-- C3 amended: the decision is total (never throws) for all inputs, and the
swap symmetry holds whenever at least one side changed since the checkpoint;
only the deliberate no-change default breaks it. -/
theorem c3_swap_symmetry_amended (nt gt : Option Int) (ls : Option (Option Int))
    (h : jsGt nt (lastSyncOf ls) = true ∨ jsGt gt (lastSyncOf ls) = true) :
    dirOf (determineSyncDirection gt nt ls) =
      Option.map swapDir (dirOf (determineSyncDirection nt gt ls)) := by
  rw [determineSyncDirection_eq, determineSyncDirection_eq]
  simp only [syncStateOf]
  cases hn : jsGt nt (lastSyncOf ls) <;> cases hg : jsGt gt (lastSyncOf ls) <;>
    simp_all [dirOf, swapDir]

/-- C3 amended, witness: with the left side changed and the right side not,
the two argument orders give the two mutually swapped directions. -/
theorem c3_swap_symmetry_amended_witness :
    dirOf (determineSyncDirection (some 0) (some 1) (some (some 0))) =
      Option.map swapDir (dirOf (determineSyncDirection (some 1) (some 0) (some (some 0)))) :=
  c3_swap_symmetry_amended (some 1) (some 0) (some (some 0)) (Or.inl (by decide))

/-- C6: the status round trip is stable on the representative statuses
(Completed maps to CLOSED and back to Completed), collapses Blocked to
In Progress through OPEN, and is total: every string lands on one of the two
representative tracker statuses, never an error. -/
theorem c6_status_roundtrip :
    boardStateToTrackerStatus (trackerStatusToBoardState "Completed") = "Completed"
    ∧ boardStateToTrackerStatus (trackerStatusToBoardState "In Progress") = "In Progress"
    ∧ boardStateToTrackerStatus (trackerStatusToBoardState "Blocked") = "In Progress"
    ∧ (trackerVocabulary.all fun s =>
        decide (boardStateToTrackerStatus (trackerStatusToBoardState s) = "In Progress"
          ∨ boardStateToTrackerStatus (trackerStatusToBoardState s) = "Completed")) = true
    ∧ ∀ s : String,
        boardStateToTrackerStatus (trackerStatusToBoardState s) = "In Progress"
        ∨ boardStateToTrackerStatus (trackerStatusToBoardState s) = "Completed" := by
  refine ⟨by decide, by decide, by decide, by decide, fun s => ?_⟩
  cases h : trackerStatusToBoardState s <;>
    simp [boardStateToTrackerStatus, GITHUB_TO_NOTION_STATUS]

/-- C10: the decision function never throws; a NaN side always counts as
unchanged (NaN comparisons are false), so a NaN left side can never produce a
conflict, a NaN right side can never propagate right-to-left, and two NaN
sides fall to the left-to-right no-change default. -/
theorem c10_nan_total (nt gt : Option Int) (ls : Option (Option Int)) :
    (∃ st, determineSyncDirection nt gt ls = Except.ok st)
    ∧ jsGt none (lastSyncOf ls) = false
    ∧ dirOf (determineSyncDirection none gt ls) ≠ some SyncDirection.conflict
    ∧ dirOf (determineSyncDirection nt none ls) ≠ some SyncDirection.githubToNotion
    ∧ determineSyncDirection none none ls =
        Except.ok ⟨SyncDirection.notionToGithub, "No changes detected, defaulting to Notion" ⟩ := by
  refine ⟨determineSyncDirection_isOk nt gt ls, by simp [jsGt], ?_, ?_, ?_⟩
  · rw [determineSyncDirection_eq]
    simp only [syncStateOf]
    cases hg : jsGt gt (lastSyncOf ls) <;> simp [jsGt, hg, dirOf]
  · rw [determineSyncDirection_eq]
    simp only [syncStateOf]
    cases hn : jsGt nt (lastSyncOf ls) <;> simp [jsGt, hn, dirOf]
  · rw [determineSyncDirection_eq]
    simp [syncStateOf, jsGt]

/- World model of the engine run.  The two external stores, the console log,
   the trace of real (non-dry) write operations, a counter of network calls
   consulted by an injected failure oracle, and a fresh-identifier counter
   standing for server-assigned identifiers.  A JavaScript exception carries
   the state reached so far, so the result type pairs both outcomes with the
   final world. -/

/-- NotionProject canonical record of the source (timestamps parsed). -/
structure NotionProject where
  id : String
  name : String
  status : String
  description : Option String
  githubProjectId : Option String
  githubProjectUrl : Option String
  lastSyncAt : Option (Option Int)
  updatedAt : Option Int
  deriving DecidableEq

/-- NotionAction canonical record of the source (timestamps parsed). -/
structure NotionAction where
  id : String
  title : String
  status : String
  projectId : Option String
  githubIssueId : Option String
  githubIssueNumber : Option Int
  githubIssueUrl : Option String
  description : Option String
  lastSyncAt : Option (Option Int)
  updatedAt : Option Int
  deriving DecidableEq

/-- GitHubProject record of the source. -/
structure GitHubProject where
  id : String
  number : Int
  title : String
  url : String
  shortDescription : Option String
  updatedAt : Option Int
  deriving DecidableEq

/-- GitHubIssue record of the source. -/
structure GitHubIssue where
  id : String
  number : Int
  title : String
  body : Option String
  state : IssueState
  url : String
  updatedAt : Option Int
  deriving DecidableEq

/-- Fields NotionClient.updateProject reads from its partial update. -/
structure NotionProjectPatch where
  githubProjectId : Option String := none
  githubProjectUrl : Option String := none
  status : Option String := none
  deriving DecidableEq

/-- Fields NotionClient.updateAction reads from its partial update. -/
structure NotionActionPatch where
  githubIssueId : Option String := none
  githubIssueNumber : Option Int := none
  githubIssueUrl : Option String := none
  status : Option String := none
  deriving DecidableEq

/-- Fields GitHubClient.updateIssue reads from its update argument. -/
structure IssuePatch where
  title : Option String := none
  body : Option String := none
  state : Option IssueState := none
  deriving DecidableEq

/-- Real (non-dry-run) mutations, one per upstream GraphQL or Notion write. -/
inductive WriteOp where
  | notionUpdateProject (pageId : String) (updates : NotionProjectPatch)
  | notionUpdateAction (pageId : String) (updates : NotionActionPatch)
  | githubCreateProject (title : String) (description : Option String)
  | githubCreateIssue (repo title : String) (body : Option String)
  | githubCloseIssue (issueId : String)
  | githubReopenIssue (issueId : String)
  | githubEditIssue (issueId : String) (title body : Option String)
  | githubAddIssueToProject (issueId projectId : String)
  deriving DecidableEq

/-- Notion store contents: the projects database and the actions database. -/
structure NotionStore where
  projects : List NotionProject
  actions : List NotionAction
  deriving DecidableEq

/-- GitHub store contents: projects, issues, and project-item memberships as
(projectId, issueId) pairs. -/
structure GitHubStore where
  projects : List GitHubProject
  issues : List GitHubIssue
  memberships : List (String × String)
  deriving DecidableEq

/-- Whole mutable state threaded through a run. -/
structure World where
  notion : NotionStore
  github : GitHubStore
  log : List String
  writes : List WriteOp
  calls : Nat
  fresh : Nat
  deriving DecidableEq

/-- Run configuration: the dry-run flag, the network failure oracle (call
index to failure), and the constant wall clock used for Last Sync stamps. -/
structure Config where
  dryRun : Bool
  fails : Nat → Bool
  now : Int

/-- Outcome of a step: normal return or a thrown exception, each carrying the
world reached. -/
inductive Res (α : Type) where
  | ok (a : α) (w : World)
  | err (e : String) (w : World)

/-- State-plus-exception monad of the model. -/
def M (α : Type) : Type := World → Res α

/-- Monadic return. -/
def M.pure {α : Type} (a : α) : M α := fun w => Res.ok a w

/-- Monadic bind; a thrown exception short-circuits, keeping its world. -/
def M.bind {α β : Type} (m : M α) (f : α → M β) : M β := fun w =>
  match m w with
  | Res.ok a w' => f a w'
  | Res.err e w' => Res.err e w'

instance : Monad M where
  pure := M.pure
  bind := M.bind

/-- World of an outcome. -/
def resWorld {α : Type} : Res α → World
  | Res.ok _ w => w
  | Res.err _ w => w

/-- True exactly on a normal return. -/
def Res.isOk {α : Type} : Res α → Bool
  | Res.ok _ _ => true
  | Res.err _ _ => false

/-- Read the current world. -/
def getWorld : M World := fun w => Res.ok w w

/-- Apply a pure world transformation. -/
def modifyW (f : World → World) : M Unit := fun w => Res.ok () (f w)

/-- Append one console line. -/
def logLine (s : String) : M Unit :=
  modifyW (fun w => { w with log := w.log ++ [s] })

/-- Throw a JavaScript exception. -/
def throwErr {α : Type} (e : String) : M α := fun w => Res.err e w

/-- JavaScript try/catch. -/
def tryCatchM {α : Type} (m : M α) (h : String → M α) : M α := fun w =>
  match m w with
  | Res.ok a w' => Res.ok a w'
  | Res.err e w' => h e w'

/-- Lift a pure fallible computation (a synchronous throw). -/
def liftThrow {α : Type} : Except String α → M α
  | Except.ok a => M.pure a
  | Except.error e => throwErr e

/-- One network request: consults the failure oracle at the current call
index and advances the index; a failure surfaces as a thrown upstream error. -/
def netCall (cfg : Config) : M Unit := fun w =>
  if cfg.fails w.calls then Res.err "UpstreamUnavailable" { w with calls := w.calls + 1 }
  else Res.ok () { w with calls := w.calls + 1 }

/-- Draw a fresh number, standing for a server-assigned identifier. -/
def freshNat : M Nat := fun w => Res.ok w.fresh { w with fresh := w.fresh + 1 }

/-- Sequential for-of loop over a list. -/
def forEachM {α : Type} (xs : List α) (f : α → M Unit) : M Unit :=
  match xs with
  | [] => M.pure ()
  | x :: rest => M.bind (f x) (fun _ => forEachM rest f)

/- Adapter methods.  Reads issue one network request and return from the
   store; writes check the dry-run flag first exactly where the source does
   (a dry write performs no network request at all, except getOrCreateProject
   whose lookup read precedes its dry-run check).  Each real write appends a
   WriteOp to the trace.  The Notion server-side bump of last_edited_time on
   an update is outside the model: the engine reads each record once before
   writing it. -/

/-- NotionClient.getProjects: one database query returning every project. -/
def NotionClient.getProjects (cfg : Config) : M (List NotionProject) := do
  netCall cfg
  let w ← getWorld
  M.pure w.notion.projects

/-- NotionClient.getActions: one database query, optionally filtered by the
Project relation. -/
def NotionClient.getActions (cfg : Config) (projectId : Option String) :
    M (List NotionAction) := do
  netCall cfg
  let w ← getWorld
  match projectId with
  | some pid => M.pure (w.notion.actions.filter (fun a => decide (a.projectId = some pid)))
  | none => M.pure w.notion.actions

/-- Field application of NotionClient.updateProject: truthy patch fields are
written and the Last Sync stamp is always set to the current time. -/
def applyNotionProjectPatch (now : Int) (u : NotionProjectPatch) (p : NotionProject) :
    NotionProject :=
  { p with
    githubProjectId :=
      if jsTruthyStr u.githubProjectId then u.githubProjectId else p.githubProjectId,
    githubProjectUrl :=
      if jsTruthyStr u.githubProjectUrl then u.githubProjectUrl else p.githubProjectUrl,
    status :=
      if jsTruthyStr u.status then u.status.getD p.status else p.status,
    lastSyncAt := some (some now) }

/-- NotionClient.updateProject: dry-run logs and returns before any network
request; otherwise one pages.update call patches the record. -/
def NotionClient.updateProject (cfg : Config) (pageId : String)
    (updates : NotionProjectPatch) : M Unit :=
  if cfg.dryRun then
    logLine ( "[DRY RUN] Would update Notion project " ++ pageId)
  else do
    netCall cfg
    modifyW (fun w =>
      { w with
        notion :=
          { w.notion with
            projects := w.notion.projects.map (fun p =>
              if p.id = pageId then applyNotionProjectPatch cfg.now updates p else p) },
        writes := w.writes ++ [WriteOp.notionUpdateProject pageId updates] })

/-- Field application of NotionClient.updateAction: truthy patch fields are
written and the Last Sync stamp is always set. -/
def applyNotionActionPatch (now : Int) (u : NotionActionPatch) (a : NotionAction) :
    NotionAction :=
  { a with
    githubIssueId :=
      if jsTruthyStr u.githubIssueId then u.githubIssueId else a.githubIssueId,
    githubIssueNumber :=
      if jsTruthyInt u.githubIssueNumber then u.githubIssueNumber else a.githubIssueNumber,
    githubIssueUrl :=
      if jsTruthyStr u.githubIssueUrl then u.githubIssueUrl else a.githubIssueUrl,
    status :=
      if jsTruthyStr u.status then u.status.getD a.status else a.status,
    lastSyncAt := some (some now) }

/-- NotionClient.updateAction: dry-run logs and returns; otherwise one
pages.update call patches the record. -/
def NotionClient.updateAction (cfg : Config) (pageId : String)
    (updates : NotionActionPatch) : M Unit :=
  if cfg.dryRun then
    logLine ( "[DRY RUN] Would update Notion action " ++ pageId)
  else do
    netCall cfg
    modifyW (fun w =>
      { w with
        notion :=
          { w.notion with
            actions := w.notion.actions.map (fun a =>
              if a.id = pageId then applyNotionActionPatch cfg.now updates a else a) },
        writes := w.writes ++ [WriteOp.notionUpdateAction pageId updates] })

/-- GitHubClient.listProjects: one GraphQL query returning the organization
projects. -/
def GitHubClient.listProjects (cfg : Config) : M (List GitHubProject) := do
  netCall cfg
  let w ← getWorld
  M.pure w.github.projects

/-- GitHubClient.addIssueToProject: dry-run logs and returns; otherwise one
addProjectV2ItemById mutation. -/
def GitHubClient.addIssueToProject (cfg : Config) (issueId projectId : String) : M Unit :=
  if cfg.dryRun then
    logLine ( "[DRY RUN] Would add issue " ++ issueId ++ " to project " ++ projectId)
  else do
    netCall cfg
    modifyW (fun w =>
      { w with
        github := { w.github with memberships := w.github.memberships ++ [(projectId, issueId)] },
        writes := w.writes ++ [WriteOp.githubAddIssueToProject issueId projectId] })

/-- GitHubClient.getOrCreateProject: lists projects and matches by exact
title; on a miss the dry run returns a synthetic project, the live run issues
the organization query and the createProjectV2 mutation. -/
def GitHubClient.getOrCreateProject (cfg : Config) (title : String)
    (description : Option String) : M GitHubProject := do
  let existingProjects ← GitHubClient.listProjects cfg
  match existingProjects.find? (fun p => decide (p.title = title)) with
  | some existing => do
      logLine ( "✓ Found existing GitHub project: " ++ title)
      M.pure existing
  | none =>
      if cfg.dryRun then do
        logLine ( "[DRY RUN] Would create GitHub project: " ++ title)
        M.pure
          { id := "dry-run-id", number := 0, title := title,
            url := "https://github.com/dry-run", shortDescription := description,
            updatedAt := some cfg.now }
      else do
        netCall cfg
        netCall cfg
        let n ← freshNat
        let gp : GitHubProject :=
          { id := "gh-project-" ++ toString n, number := Int.ofNat n + 1, title := title,
            url := "https://github.com/orgs/projects/" ++ toString n,
            shortDescription := description, updatedAt := some cfg.now }
        modifyW (fun w =>
          { w with
            github := { w.github with projects := w.github.projects ++ [gp] },
            writes := w.writes ++ [WriteOp.githubCreateProject title description] })
        logLine ( "✓ Created GitHub project: " ++ title)
        M.pure gp

/-- GitHubClient.createIssue: dry-run logs and returns a synthetic issue
before any network request; the live run issues the repository query and the
createIssue mutation, then adds the issue to the project when a truthy
project id was passed. -/
def GitHubClient.createIssue (cfg : Config) (repo title : String)
    (body : Option String) (projectId : Option String) : M GitHubIssue :=
  if cfg.dryRun then do
    logLine ( "[DRY RUN] Would create GitHub issue in " ++ repo ++ ": " ++ title)
    M.pure
      { id := "dry-run-issue-id", number := 0, title := title, body := body,
        state := IssueState.OPEN, url := "https://github.com/dry-run",
        updatedAt := some cfg.now }
  else do
    netCall cfg
    netCall cfg
    let n ← freshNat
    let issue : GitHubIssue :=
      { id := "gh-issue-" ++ toString n, number := Int.ofNat n + 1, title := title,
        body := body, state := IssueState.OPEN,
        url := "https://github.com/" ++ repo ++ "/issues/" ++ toString n,
        updatedAt := some cfg.now }
    modifyW (fun w =>
      { w with
        github := { w.github with issues := w.github.issues ++ [issue] },
        writes := w.writes ++ [WriteOp.githubCreateIssue repo title body] })
    (if jsTruthyStr projectId then
      GitHubClient.addIssueToProject cfg issue.id (projectId.getD "")
    else M.pure ())
    logLine ( "✓ Created GitHub issue #" ++ toString issue.number ++ ": " ++ title)
    M.pure issue

/-- GitHubClient.updateIssue: dry-run logs and returns; the live run issues a
close or reopen mutation when a state is given, then an updateIssue mutation
when a truthy title or body is given (a provided field overwrites, an absent
one is left unchanged by the upstream API). -/
def GitHubClient.updateIssue (cfg : Config) (issueId : String)
    (updates : IssuePatch) : M Unit :=
  if cfg.dryRun then
    logLine ( "[DRY RUN] Would update GitHub issue " ++ issueId)
  else do
    (if updates.state = some IssueState.CLOSED then do
      netCall cfg
      modifyW (fun w =>
        { w with
          github := { w.github with issues := w.github.issues.map (fun i =>
            if i.id = issueId then { i with state := IssueState.CLOSED } else i) },
          writes := w.writes ++ [WriteOp.githubCloseIssue issueId] })
    else if updates.state = some IssueState.OPEN then do
      netCall cfg
      modifyW (fun w =>
        { w with
          github := { w.github with issues := w.github.issues.map (fun i =>
            if i.id = issueId then { i with state := IssueState.OPEN } else i) },
          writes := w.writes ++ [WriteOp.githubReopenIssue issueId] })
    else M.pure ())
    (if jsTruthyStr updates.title || jsTruthyStr updates.body then do
      netCall cfg
      modifyW (fun w =>
        { w with
          github := { w.github with issues := w.github.issues.map (fun i =>
            if i.id = issueId then
              { i with
                title := updates.title.getD i.title,
                body := match updates.body with | some b => some b | none => i.body }
            else i) },
          writes := w.writes ++ [WriteOp.githubEditIssue issueId updates.title updates.body] })
    else M.pure ())

/-- GitHubClient.getIssuesByProject: one GraphQL query returning the issues
belonging to the project. -/
def GitHubClient.getIssuesByProject (cfg : Config) (projectId : String) :
    M (List GitHubIssue) := do
  netCall cfg
  let w ← getWorld
  M.pure (w.github.issues.filter (fun i =>
    w.github.memberships.any (fun m => decide (m = (projectId, i.id)))))

/- SyncEngine.  The source's for-of loop bodies become the per-entity
   functions below; a `continue` statement becomes an early exit of the body
   function, which is control-flow equivalent.  Console interpolation of
   objects is abstracted to the fixed text before the interpolation point. -/

/-- Per-action body of the SyncEngine.syncActions loop, inside its try:
linked actions are matched against the pre-fetched issue list, given a
direction, and propagated; unlinked actions get a fresh linked issue. -/
def SyncEngine.syncActionBody (cfg : Config) (githubIssues : List GitHubIssue)
    (githubProject : GitHubProject) (repo : String) (action : NotionAction) : M Unit :=
  if jsTruthyStr action.githubIssueId then
    match githubIssues.find? (fun i => decide (some i.id = action.githubIssueId)) with
    | none => logLine ( "    ⚠️  Linked GitHub issue not found for: " ++ action.title)
    | some githubIssue => do
        let syncState ← liftThrow
          (determineSyncDirection action.updatedAt githubIssue.updatedAt action.lastSyncAt)
        logLine ( "    → " ++ action.title ++ ": " ++ dirString syncState.direction)
        if syncState.direction = SyncDirection.conflict then
          logLine ( "      ⚠️  CONFLICT: Manual resolution required")
        else if syncState.direction = SyncDirection.notionToGithub then do
          let githubState := (NOTION_TO_GITHUB_STATUS action.status).getD IssueState.OPEN
          GitHubClient.updateIssue cfg githubIssue.id
            { title := some action.title, body := action.description,
              state := some githubState }
          NotionClient.updateAction cfg action.id {}
          logLine ( "      ✓ Updated GitHub issue #" ++ toString githubIssue.number)
        else do
          let notionStatus := jsOrStr (GITHUB_TO_NOTION_STATUS githubIssue.state) action.status
          NotionClient.updateAction cfg action.id { status := some notionStatus }
          logLine ( "      ✓ Updated Notion action from GitHub")
  else do
    let githubIssue ← GitHubClient.createIssue cfg repo action.title action.description
      (some githubProject.id)
    NotionClient.updateAction cfg action.id
      { githubIssueId := some githubIssue.id,
        githubIssueNumber := some githubIssue.number,
        githubIssueUrl := some githubIssue.url }
    logLine ( "    ✓ Created & linked GitHub issue #" ++ toString githubIssue.number ++
      ": " ++ action.title)

/-- One iteration of the actions loop: the body inside a try whose catch logs
the action title and continues. -/
def SyncEngine.syncOneAction (cfg : Config) (githubIssues : List GitHubIssue)
    (githubProject : GitHubProject) (repo : String) (action : NotionAction) : M Unit :=
  tryCatchM (SyncEngine.syncActionBody cfg githubIssues githubProject repo action)
    (fun e => logLine ( "    ✗ Error syncing action " ++ action.title ++ ": " ++ e))

/-- SyncEngine.syncActions: fetch both sides once, then iterate the Notion
actions; unpaired GitHub issues are deliberately not imported. -/
def SyncEngine.syncActions (cfg : Config) (notionProject : NotionProject)
    (githubProject : GitHubProject) (repo : String) : M Unit := do
  logLine ( "\n  📝 Syncing Actions for " ++ notionProject.name ++ "...")
  let notionActions ← NotionClient.getActions cfg (some notionProject.id)
  let githubIssues ← GitHubClient.getIssuesByProject cfg githubProject.id
  logLine ( "  Found " ++ toString notionActions.length ++ " Notion actions, " ++
    toString githubIssues.length ++ " GitHub issues")
  forEachM notionActions (SyncEngine.syncOneAction cfg githubIssues githubProject repo)

/-- Tail of the per-project body shared by every non-conflict path: persist
the counterpart link onto the Notion project, then recurse into the actions. -/
def SyncEngine.finishProject (cfg : Config) (repo : String) (project : NotionProject)
    (githubProject : GitHubProject) : M Unit := do
  NotionClient.updateProject cfg project.id
    { githubProjectId := some githubProject.id,
      githubProjectUrl := some githubProject.url }
  logLine ( "  ✓ Synced with GitHub Project #" ++ toString githubProject.number)
  SyncEngine.syncActions cfg project githubProject repo

/-- Per-project body of the SyncEngine.syncProjects loop, inside its try:
linked projects are resolved by id (a miss logs a warning and falls back to
get-or-create), a resolved pair gets a direction decision and conflicts stop
before any write; unlinked projects go straight to get-or-create. -/
def SyncEngine.syncProjectBody (cfg : Config) (repo : String)
    (project : NotionProject) : M Unit :=
  if jsTruthyStr project.githubProjectId then do
    let allProjects ← GitHubClient.listProjects cfg
    match allProjects.find? (fun p => decide (some p.id = project.githubProjectId)) with
    | none => do
        logLine ( "  ⚠️  Linked GitHub project not found, creating new one")
        let githubProject ← GitHubClient.getOrCreateProject cfg project.name project.description
        SyncEngine.finishProject cfg repo project githubProject
    | some githubProject => do
        let syncState ← liftThrow
          (determineSyncDirection project.updatedAt githubProject.updatedAt project.lastSyncAt)
        logLine ( "  ℹ️  Sync: " ++ dirString syncState.direction ++
          " (" ++ syncState.reason ++ ")")
        if syncState.direction = SyncDirection.conflict then
          logLine ( "  ⚠️  CONFLICT: Manual resolution required")
        else
          SyncEngine.finishProject cfg repo project githubProject
  else do
    let githubProject ← GitHubClient.getOrCreateProject cfg project.name project.description
    SyncEngine.finishProject cfg repo project githubProject

/-- One iteration of the projects loop: the processing banner, then the body
inside a try whose catch logs the error and continues with the next project. -/
def SyncEngine.syncOneProject (cfg : Config) (repo : String)
    (project : NotionProject) : M Unit := do
  logLine ( "\n→ Processing: " ++ project.name)
  tryCatchM (SyncEngine.syncProjectBody cfg repo project)
    (fun e => logLine ( "  ✗ Error syncing project: " ++ e))

/-- SyncEngine.syncProjects: the initial listing is outside any try, so its
failure aborts the pass; each project is then processed in isolation. -/
def SyncEngine.syncProjects (cfg : Config) (repo : String) : M Unit := do
  logLine ( "\n📊 Syncing Projects...\n")
  let notionProjects ← NotionClient.getProjects cfg
  logLine ( "Found " ++ toString notionProjects.length ++ " Notion projects")
  forEachM notionProjects (SyncEngine.syncOneProject cfg repo)

/-- SyncEngine.run: banner, the pass inside a try, a success line plus the
dry-run reminder on completion, and a rethrow after logging on failure. -/
def SyncEngine.run (cfg : Config) (repo : String) : M Unit := do
  logLine ( "🔄 ChittyCan™ Notion ↔ GitHub Sync")
  logLine ( "====================================")
  logLine (if cfg.dryRun then "Mode: 🔍 DRY RUN" else "Mode: 🚀 LIVE")
  logLine ( "Repository: " ++ repo ++ "\n")
  tryCatchM
    (do
      SyncEngine.syncProjects cfg repo
      logLine ( "\n✅ Sync completed successfully!")
      if cfg.dryRun then
        logLine ( "\n💡 Run with DRY_RUN=false to apply changes")
      else M.pure ())
    (fun e => do
      logLine ( "\n❌ Sync failed: " ++ e)
      throwErr e)

/- Proof kit: pointwise evaluation lemmas for the monad primitives and
   compositional predicates used by the run-level theorems. -/

@[simp] lemma bind_apply {α β : Type} (m : M α) (f : α → M β) (w : World) :
    (m >>= f) w =
      match m w with
      | Res.ok a w' => f a w'
      | Res.err e w' => Res.err e w' := rfl

@[simp] lemma mBind_apply {α β : Type} (m : M α) (f : α → M β) (w : World) :
    M.bind m f w =
      match m w with
      | Res.ok a w' => f a w'
      | Res.err e w' => Res.err e w' := rfl

@[simp] lemma pure_apply {α : Type} (a : α) (w : World) :
    (pure a : M α) w = Res.ok a w := rfl

@[simp] lemma mPure_apply {α : Type} (a : α) (w : World) :
    M.pure a w = Res.ok a w := rfl

@[simp] lemma getWorld_apply (w : World) : getWorld w = Res.ok w w := rfl

@[simp] lemma modifyW_apply (f : World → World) (w : World) :
    modifyW f w = Res.ok () (f w) := rfl

@[simp] lemma logLine_apply (s : String) (w : World) :
    logLine s w = Res.ok () { w with log := w.log ++ [s] } := rfl

@[simp] lemma throwErr_apply {α : Type} (e : String) (w : World) :
    (throwErr e : M α) w = Res.err e w := rfl

@[simp] lemma tryCatchM_apply {α : Type} (m : M α) (h : String → M α) (w : World) :
    tryCatchM m h w =
      match m w with
      | Res.ok a w' => Res.ok a w'
      | Res.err e w' => h e w' := rfl

@[simp] lemma freshNat_apply (w : World) :
    freshNat w = Res.ok w.fresh { w with fresh := w.fresh + 1 } := rfl

lemma netCall_apply_ok {cfg : Config} (w : World) (h : cfg.fails w.calls = false) :
    netCall cfg w = Res.ok () { w with calls := w.calls + 1 } := by
  simp [netCall, h]

lemma netCall_apply_err {cfg : Config} (w : World) (h : cfg.fails w.calls = true) :
    netCall cfg w = Res.err "UpstreamUnavailable" { w with calls := w.calls + 1 } := by
  simp [netCall, h]

/-- Two worlds agreeing on both stores and the real-write trace. -/
def sameData (w w' : World) : Prop :=
  w'.notion = w.notion ∧ w'.github = w.github ∧ w'.writes = w.writes

lemma sameData_refl (w : World) : sameData w w := ⟨rfl, rfl, rfl⟩

lemma sameData_trans {w1 w2 w3 : World} (h1 : sameData w1 w2) (h2 : sameData w2 w3) :
    sameData w1 w3 :=
  ⟨h2.1.trans h1.1, h2.2.1.trans h1.2.1, h2.2.2.trans h1.2.2⟩

/-- A step that always returns normally and never touches the stores or the
real-write trace. -/
def cleanRun {α : Type} (m : M α) : Prop :=
  ∀ w, ∃ a w', m w = Res.ok a w' ∧ sameData w w'

lemma cleanRun_bind {α β : Type} {m : M α} {f : α → M β}
    (hm : cleanRun m) (hf : ∀ a, cleanRun (f a)) : cleanRun (m >>= f) := by
  intro w
  obtain ⟨a, w1, h1, d1⟩ := hm w
  obtain ⟨b, w2, h2, d2⟩ := hf a w1
  exact ⟨b, w2, by simp [h1, h2], sameData_trans d1 d2⟩

lemma cleanRun_pure {α : Type} (a : α) : cleanRun (M.pure a) :=
  fun w => ⟨a, w, rfl, sameData_refl w⟩

lemma cleanRun_logLine (s : String) : cleanRun (logLine s) :=
  fun w => ⟨(), { w with log := w.log ++ [s] }, rfl, ⟨rfl, rfl, rfl⟩⟩

lemma cleanRun_getWorld : cleanRun getWorld :=
  fun w => ⟨w, w, rfl, sameData_refl w⟩

lemma cleanRun_freshNat : cleanRun freshNat :=
  fun w => ⟨w.fresh, { w with fresh := w.fresh + 1 }, rfl, ⟨rfl, rfl, rfl⟩⟩

lemma cleanRun_netCall {cfg : Config} (hfails : ∀ n, cfg.fails n = false) :
    cleanRun (netCall cfg) :=
  fun w => ⟨(), { w with calls := w.calls + 1 },
    netCall_apply_ok w (hfails w.calls), ⟨rfl, rfl, rfl⟩⟩

lemma cleanRun_tryCatchM {α : Type} {m : M α} {h : String → M α}
    (hm : cleanRun m) : cleanRun (tryCatchM m h) := by
  intro w
  obtain ⟨a, w1, h1, d1⟩ := hm w
  exact ⟨a, w1, by simp [h1], d1⟩

lemma cleanRun_forEachM {α : Type} {xs : List α} {f : α → M Unit}
    (hf : ∀ x ∈ xs, cleanRun (f x)) : cleanRun (forEachM xs f) := by
  induction xs with
  | nil => exact cleanRun_pure ()
  | cons x rest ih =>
    intro w
    obtain ⟨a, w1, h1, d1⟩ := hf x (by simp) w
    obtain ⟨b, w2, h2, d2⟩ := ih (fun y hy => hf y (by simp [hy])) w1
    exact ⟨b, w2, by simp [forEachM, h1, h2], sameData_trans d1 d2⟩

lemma cleanRun_liftThrow_dss (nt gt : Option Int) (ls : Option (Option Int)) :
    cleanRun (liftThrow (determineSyncDirection nt gt ls)) := by
  rw [determineSyncDirection_eq]
  exact fun w => ⟨syncStateOf nt gt ls, w, rfl, sameData_refl w⟩

/-- A step that always returns normally (regardless of what it changes). -/
def noThrow {α : Type} (m : M α) : Prop :=
  ∀ w, ∃ a w', m w = Res.ok a w'

lemma noThrow_tryCatchM {α : Type} (m : M α) {h : String → M α}
    (hh : ∀ e, noThrow (h e)) : noThrow (tryCatchM m h) := by
  intro w
  cases hm : m w with
  | ok a w' => exact ⟨a, w', by simp [hm]⟩
  | err e w' =>
    obtain ⟨a, w2, h2⟩ := hh e w'
    exact ⟨a, w2, by simp [hm, h2]⟩

lemma noThrow_bind {α β : Type} {m : M α} {f : α → M β}
    (hm : noThrow m) (hf : ∀ a, noThrow (f a)) : noThrow (m >>= f) := by
  intro w
  obtain ⟨a, w1, h1⟩ := hm w
  obtain ⟨b, w2, h2⟩ := hf a w1
  exact ⟨b, w2, by simp [h1, h2]⟩

lemma noThrow_logLine (s : String) : noThrow (logLine s) :=
  fun w => ⟨(), { w with log := w.log ++ [s] }, rfl⟩

lemma noThrow_forEachM {α : Type} {xs : List α} {f : α → M Unit}
    (hf : ∀ x ∈ xs, noThrow (f x)) : noThrow (forEachM xs f) := by
  induction xs with
  | nil => exact fun w => ⟨(), w, rfl⟩
  | cons x rest ih =>
    intro w
    obtain ⟨a, w1, h1⟩ := hf x (by simp) w
    obtain ⟨b, w2, h2⟩ := ih (fun y hy => hf y (by simp [hy])) w1
    exact ⟨b, w2, by simp [forEachM, h1, h2]⟩

@[simp] lemma resWorld_ok {α : Type} (a : α) (w : World) :
    resWorld (Res.ok a w) = w := rfl

@[simp] lemma resWorld_err {α : Type} (e : String) (w : World) :
    resWorld (Res.err e w : Res α) = w := rfl

/-- A step that only ever appends to the console log, whether it returns or
throws. -/
def logExtends {α : Type} (m : M α) : Prop :=
  ∀ w, ∃ t, (resWorld (m w)).log = w.log ++ t

lemma logExtends_bind {α β : Type} {m : M α} {f : α → M β}
    (hm : logExtends m) (hf : ∀ a, logExtends (f a)) : logExtends (m >>= f) := by
  intro w
  cases hm1 : m w with
  | ok a w1 =>
    obtain ⟨t2, h2⟩ := hf a w1
    obtain ⟨t1, h1⟩ := hm w
    rw [hm1] at h1
    simp only [resWorld_ok] at h1
    exact ⟨t1 ++ t2, by simp [hm1, h2, h1, List.append_assoc]⟩
  | err e w1 =>
    obtain ⟨t1, h1⟩ := hm w
    rw [hm1] at h1
    simp only [resWorld_err] at h1
    exact ⟨t1, by simp [hm1, h1]⟩

lemma logExtends_pure {α : Type} (a : α) : logExtends (M.pure a) :=
  fun w => ⟨[], by simp [resWorld]⟩

lemma logExtends_logLine (s : String) : logExtends (logLine s) :=
  fun w => ⟨[s], by simp [resWorld]⟩

lemma logExtends_getWorld : logExtends getWorld :=
  fun w => ⟨[], by simp [resWorld]⟩

lemma logExtends_freshNat : logExtends freshNat :=
  fun w => ⟨[], by simp [resWorld]⟩

lemma logExtends_throwErr {α : Type} (e : String) : logExtends (throwErr e : M α) :=
  fun w => ⟨[], by simp [resWorld]⟩

lemma logExtends_netCall (cfg : Config) : logExtends (netCall cfg) := by
  intro w
  cases h : cfg.fails w.calls with
  | false => exact ⟨[], by simp [netCall_apply_ok w h, resWorld]⟩
  | true => exact ⟨[], by simp [netCall_apply_err w h, resWorld]⟩

lemma logExtends_modifyW {f : World → World} (h : ∀ w, (f w).log = w.log) :
    logExtends (modifyW f) :=
  fun w => ⟨[], by simp [resWorld, h]⟩

lemma logExtends_tryCatchM {α : Type} {m : M α} {h : String → M α}
    (hm : logExtends m) (hh : ∀ e, logExtends (h e)) : logExtends (tryCatchM m h) := by
  intro w
  cases hm1 : m w with
  | ok a w1 =>
    obtain ⟨t1, h1⟩ := hm w
    rw [hm1] at h1
    simp only [resWorld_ok] at h1
    exact ⟨t1, by simp [hm1, h1]⟩
  | err e w1 =>
    obtain ⟨t1, h1⟩ := hm w
    rw [hm1] at h1
    simp only [resWorld_err] at h1
    obtain ⟨t2, h2⟩ := hh e w1
    exact ⟨t1 ++ t2, by simp [hm1, h2, h1, List.append_assoc]⟩

lemma logExtends_liftThrow_dss (nt gt : Option Int) (ls : Option (Option Int)) :
    logExtends (liftThrow (determineSyncDirection nt gt ls)) := by
  rw [determineSyncDirection_eq]
  exact fun w => ⟨[], by simp [liftThrow, resWorld]⟩

lemma logExtends_forEachM {α : Type} {xs : List α} {f : α → M Unit}
    (hf : ∀ x ∈ xs, logExtends (f x)) : logExtends (forEachM xs f) := by
  induction xs with
  | nil => exact fun w => ⟨[], by simp [forEachM, resWorld]⟩
  | cons x rest ih =>
    intro w
    have hx := hf x (by simp)
    have hrest := ih (fun y hy => hf y (by simp [hy]))
    cases hm1 : f x w with
    | ok a w1 =>
      obtain ⟨t1, h1⟩ := hx w
      rw [hm1] at h1
      simp only [resWorld_ok] at h1
      obtain ⟨t2, h2⟩ := hrest w1
      exact ⟨t1 ++ t2, by simp [forEachM, hm1, h2, h1, List.append_assoc]⟩
    | err e w1 =>
      obtain ⟨t1, h1⟩ := hx w
      rw [hm1] at h1
      simp only [resWorld_err] at h1
      exact ⟨t1, by simp [forEachM, hm1, h1]⟩

/- Per-function cleanRun lemmas: under dry-run with a healthy network, every
   engine step returns normally and leaves both stores and the real-write
   trace untouched. -/

lemma cleanRun_getProjects {cfg : Config} (hfails : ∀ n, cfg.fails n = false) :
    cleanRun (NotionClient.getProjects cfg) := by
  unfold NotionClient.getProjects
  exact cleanRun_bind (cleanRun_netCall hfails)
    (fun _ => cleanRun_bind cleanRun_getWorld (fun w => cleanRun_pure _))

lemma cleanRun_getActions {cfg : Config} (hfails : ∀ n, cfg.fails n = false)
    (pid : Option String) : cleanRun (NotionClient.getActions cfg pid) := by
  unfold NotionClient.getActions
  refine cleanRun_bind (cleanRun_netCall hfails)
    (fun _ => cleanRun_bind cleanRun_getWorld (fun w => ?_))
  cases pid <;> exact cleanRun_pure _

lemma cleanRun_updateProject {cfg : Config} (hdry : cfg.dryRun = true)
    (pid : String) (u : NotionProjectPatch) :
    cleanRun (NotionClient.updateProject cfg pid u) := by
  unfold NotionClient.updateProject
  rw [if_pos hdry]
  exact cleanRun_logLine _

lemma cleanRun_updateAction {cfg : Config} (hdry : cfg.dryRun = true)
    (pid : String) (u : NotionActionPatch) :
    cleanRun (NotionClient.updateAction cfg pid u) := by
  unfold NotionClient.updateAction
  rw [if_pos hdry]
  exact cleanRun_logLine _

lemma cleanRun_listProjects {cfg : Config} (hfails : ∀ n, cfg.fails n = false) :
    cleanRun (GitHubClient.listProjects cfg) := by
  unfold GitHubClient.listProjects
  exact cleanRun_bind (cleanRun_netCall hfails)
    (fun _ => cleanRun_bind cleanRun_getWorld (fun w => cleanRun_pure _))

lemma cleanRun_addIssueToProject {cfg : Config} (hdry : cfg.dryRun = true)
    (iid pid : String) : cleanRun (GitHubClient.addIssueToProject cfg iid pid) := by
  unfold GitHubClient.addIssueToProject
  rw [if_pos hdry]
  exact cleanRun_logLine _

lemma cleanRun_getOrCreateProject {cfg : Config} (hdry : cfg.dryRun = true)
    (hfails : ∀ n, cfg.fails n = false) (title : String) (d : Option String) :
    cleanRun (GitHubClient.getOrCreateProject cfg title d) := by
  unfold GitHubClient.getOrCreateProject
  refine cleanRun_bind (cleanRun_listProjects hfails) (fun eps => ?_)
  cases hfind : eps.find? (fun p => decide (p.title = title)) with
  | some ex => exact cleanRun_bind (cleanRun_logLine _) (fun _ => cleanRun_pure _)
  | none =>
    rw [if_pos hdry]
    exact cleanRun_bind (cleanRun_logLine _) (fun _ => cleanRun_pure _)

lemma cleanRun_createIssue {cfg : Config} (hdry : cfg.dryRun = true)
    (repo title : String) (body pid : Option String) :
    cleanRun (GitHubClient.createIssue cfg repo title body pid) := by
  unfold GitHubClient.createIssue
  rw [if_pos hdry]
  exact cleanRun_bind (cleanRun_logLine _) (fun _ => cleanRun_pure _)

lemma cleanRun_updateIssue {cfg : Config} (hdry : cfg.dryRun = true)
    (iid : String) (u : IssuePatch) : cleanRun (GitHubClient.updateIssue cfg iid u) := by
  unfold GitHubClient.updateIssue
  rw [if_pos hdry]
  exact cleanRun_logLine _

lemma cleanRun_getIssuesByProject {cfg : Config} (hfails : ∀ n, cfg.fails n = false)
    (pid : String) : cleanRun (GitHubClient.getIssuesByProject cfg pid) := by
  unfold GitHubClient.getIssuesByProject
  exact cleanRun_bind (cleanRun_netCall hfails)
    (fun _ => cleanRun_bind cleanRun_getWorld (fun w => cleanRun_pure _))

lemma cleanRun_syncActionBody {cfg : Config} (hdry : cfg.dryRun = true)
    (hfails : ∀ n, cfg.fails n = false) (gis : List GitHubIssue)
    (gp : GitHubProject) (repo : String) (a : NotionAction) :
    cleanRun (SyncEngine.syncActionBody cfg gis gp repo a) := by
  unfold SyncEngine.syncActionBody
  by_cases hlink : jsTruthyStr a.githubIssueId = true
  · rw [if_pos hlink]
    cases hfind : gis.find? (fun i => decide (some i.id = a.githubIssueId)) with
    | none => exact cleanRun_logLine _
    | some gi =>
      refine cleanRun_bind (cleanRun_liftThrow_dss _ _ _) (fun st => ?_)
      refine cleanRun_bind (cleanRun_logLine _) (fun _ => ?_)
      by_cases hc : st.direction = SyncDirection.conflict
      · rw [if_pos hc]
        exact cleanRun_logLine _
      · rw [if_neg hc]
        by_cases hn : st.direction = SyncDirection.notionToGithub
        · rw [if_pos hn]
          exact cleanRun_bind (cleanRun_updateIssue hdry _ _)
            (fun _ => cleanRun_bind (cleanRun_updateAction hdry _ _)
              (fun _ => cleanRun_logLine _))
        · rw [if_neg hn]
          exact cleanRun_bind (cleanRun_updateAction hdry _ _)
            (fun _ => cleanRun_logLine _)
  · rw [if_neg hlink]
    exact cleanRun_bind (cleanRun_createIssue hdry _ _ _ _)
      (fun i => cleanRun_bind (cleanRun_updateAction hdry _ _)
        (fun _ => cleanRun_logLine _))

lemma cleanRun_syncOneAction {cfg : Config} (hdry : cfg.dryRun = true)
    (hfails : ∀ n, cfg.fails n = false) (gis : List GitHubIssue)
    (gp : GitHubProject) (repo : String) (a : NotionAction) :
    cleanRun (SyncEngine.syncOneAction cfg gis gp repo a) := by
  unfold SyncEngine.syncOneAction
  exact cleanRun_tryCatchM (cleanRun_syncActionBody hdry hfails gis gp repo a)

lemma cleanRun_syncActions {cfg : Config} (hdry : cfg.dryRun = true)
    (hfails : ∀ n, cfg.fails n = false) (np : NotionProject)
    (gp : GitHubProject) (repo : String) :
    cleanRun (SyncEngine.syncActions cfg np gp repo) := by
  unfold SyncEngine.syncActions
  refine cleanRun_bind (cleanRun_logLine _) (fun _ => ?_)
  refine cleanRun_bind (cleanRun_getActions hfails _) (fun as => ?_)
  refine cleanRun_bind (cleanRun_getIssuesByProject hfails _) (fun gis => ?_)
  refine cleanRun_bind (cleanRun_logLine _) (fun _ => ?_)
  exact cleanRun_forEachM (fun x _ => cleanRun_syncOneAction hdry hfails gis gp repo x)

lemma cleanRun_finishProject {cfg : Config} (hdry : cfg.dryRun = true)
    (hfails : ∀ n, cfg.fails n = false) (repo : String) (p : NotionProject)
    (gp : GitHubProject) : cleanRun (SyncEngine.finishProject cfg repo p gp) := by
  unfold SyncEngine.finishProject
  exact cleanRun_bind (cleanRun_updateProject hdry _ _)
    (fun _ => cleanRun_bind (cleanRun_logLine _)
      (fun _ => cleanRun_syncActions hdry hfails p gp repo))

lemma cleanRun_syncProjectBody {cfg : Config} (hdry : cfg.dryRun = true)
    (hfails : ∀ n, cfg.fails n = false) (repo : String) (p : NotionProject) :
    cleanRun (SyncEngine.syncProjectBody cfg repo p) := by
  unfold SyncEngine.syncProjectBody
  by_cases hlink : jsTruthyStr p.githubProjectId = true
  · rw [if_pos hlink]
    refine cleanRun_bind (cleanRun_listProjects hfails) (fun gps => ?_)
    cases hfind : gps.find? (fun q => decide (some q.id = p.githubProjectId)) with
    | none =>
      exact cleanRun_bind (cleanRun_logLine _)
        (fun _ => cleanRun_bind (cleanRun_getOrCreateProject hdry hfails _ _)
          (fun gp => cleanRun_finishProject hdry hfails repo p gp))
    | some gp =>
      refine cleanRun_bind (cleanRun_liftThrow_dss _ _ _) (fun st => ?_)
      refine cleanRun_bind (cleanRun_logLine _) (fun _ => ?_)
      by_cases hc : st.direction = SyncDirection.conflict
      · rw [if_pos hc]
        exact cleanRun_logLine _
      · rw [if_neg hc]
        exact cleanRun_finishProject hdry hfails repo p gp
  · rw [if_neg hlink]
    exact cleanRun_bind (cleanRun_getOrCreateProject hdry hfails _ _)
      (fun gp => cleanRun_finishProject hdry hfails repo p gp)

lemma cleanRun_syncOneProject {cfg : Config} (hdry : cfg.dryRun = true)
    (hfails : ∀ n, cfg.fails n = false) (repo : String) (p : NotionProject) :
    cleanRun (SyncEngine.syncOneProject cfg repo p) := by
  unfold SyncEngine.syncOneProject
  exact cleanRun_bind (cleanRun_logLine _)
    (fun _ => cleanRun_tryCatchM (cleanRun_syncProjectBody hdry hfails repo p))

lemma cleanRun_syncProjects {cfg : Config} (hdry : cfg.dryRun = true)
    (hfails : ∀ n, cfg.fails n = false) (repo : String) :
    cleanRun (SyncEngine.syncProjects cfg repo) := by
  unfold SyncEngine.syncProjects
  refine cleanRun_bind (cleanRun_logLine _) (fun _ => ?_)
  refine cleanRun_bind (cleanRun_getProjects hfails) (fun ps => ?_)
  refine cleanRun_bind (cleanRun_logLine _) (fun _ => ?_)
  exact cleanRun_forEachM (fun x _ => cleanRun_syncOneProject hdry hfails repo x)

lemma cleanRun_run {cfg : Config} (hdry : cfg.dryRun = true)
    (hfails : ∀ n, cfg.fails n = false) (repo : String) :
    cleanRun (SyncEngine.run cfg repo) := by
  unfold SyncEngine.run
  refine cleanRun_bind (cleanRun_logLine _) (fun _ => ?_)
  refine cleanRun_bind (cleanRun_logLine _) (fun _ => ?_)
  refine cleanRun_bind (cleanRun_logLine _) (fun _ => ?_)
  refine cleanRun_bind (cleanRun_logLine _) (fun _ => ?_)
  refine cleanRun_tryCatchM ?_
  refine cleanRun_bind (cleanRun_syncProjects hdry hfails repo) (fun _ => ?_)
  refine cleanRun_bind (cleanRun_logLine _) (fun _ => ?_)
  rw [if_pos hdry]
  exact cleanRun_logLine _

/-- C4: under dry-run (with a healthy network so the pass can finish), every
adapter write method returns normally without mutating either store or
recording a real write, and a whole run completes leaving both stores and the
real-write trace exactly as it found them. -/
theorem c4_dry_run_no_mutation (cfg : Config) (repo : String)
    (hdry : cfg.dryRun = true) (hfails : ∀ n, cfg.fails n = false) :
    (∀ pid u, cleanRun (NotionClient.updateProject cfg pid u))
    ∧ (∀ pid u, cleanRun (NotionClient.updateAction cfg pid u))
    ∧ (∀ r t b p, cleanRun (GitHubClient.createIssue cfg r t b p))
    ∧ (∀ iid u, cleanRun (GitHubClient.updateIssue cfg iid u))
    ∧ (∀ t d, cleanRun (GitHubClient.getOrCreateProject cfg t d))
    ∧ (∀ iid pid, cleanRun (GitHubClient.addIssueToProject cfg iid pid))
    ∧ cleanRun (SyncEngine.run cfg repo) :=
  ⟨fun pid u => cleanRun_updateProject hdry pid u,
   fun pid u => cleanRun_updateAction hdry pid u,
   fun r t b p => cleanRun_createIssue hdry r t b p,
   fun iid u => cleanRun_updateIssue hdry iid u,
   fun t d => cleanRun_getOrCreateProject hdry hfails t d,
   fun iid pid => cleanRun_addIssueToProject hdry iid pid,
   cleanRun_run hdry hfails repo⟩

/-- C4 witness, applying the theorem at a concrete dry-run configuration. -/
theorem c4_dry_run_no_mutation_witness :
    (∀ pid u, cleanRun (NotionClient.updateProject ⟨true, fun _ => false, 0⟩ pid u))
    ∧ (∀ pid u, cleanRun (NotionClient.updateAction ⟨true, fun _ => false, 0⟩ pid u))
    ∧ (∀ r t b p, cleanRun (GitHubClient.createIssue ⟨true, fun _ => false, 0⟩ r t b p))
    ∧ (∀ iid u, cleanRun (GitHubClient.updateIssue ⟨true, fun _ => false, 0⟩ iid u))
    ∧ (∀ t d, cleanRun (GitHubClient.getOrCreateProject ⟨true, fun _ => false, 0⟩ t d))
    ∧ (∀ iid pid, cleanRun (GitHubClient.addIssueToProject ⟨true, fun _ => false, 0⟩ iid pid))
    ∧ cleanRun (SyncEngine.run ⟨true, fun _ => false, 0⟩ "chittyreception") :=
  c4_dry_run_no_mutation ⟨true, fun _ => false, 0⟩ "chittyreception" rfl (fun _ => rfl)

/- Per-function logExtends lemmas: every engine step only appends console
   lines, independently of the dry-run flag and the failure oracle. -/

lemma logExtends_getProjects (cfg : Config) : logExtends (NotionClient.getProjects cfg) := by
  unfold NotionClient.getProjects
  exact logExtends_bind (logExtends_netCall cfg)
    (fun _ => logExtends_bind logExtends_getWorld (fun w => logExtends_pure _))

lemma logExtends_getActions (cfg : Config) (pid : Option String) :
    logExtends (NotionClient.getActions cfg pid) := by
  unfold NotionClient.getActions
  refine logExtends_bind (logExtends_netCall cfg)
    (fun _ => logExtends_bind logExtends_getWorld (fun w => ?_))
  cases pid <;> exact logExtends_pure _

lemma logExtends_updateProject (cfg : Config) (pid : String) (u : NotionProjectPatch) :
    logExtends (NotionClient.updateProject cfg pid u) := by
  unfold NotionClient.updateProject
  by_cases hdry : cfg.dryRun = true
  · rw [if_pos hdry]
    exact logExtends_logLine _
  · rw [if_neg hdry]
    exact logExtends_bind (logExtends_netCall cfg)
      (fun _ => logExtends_modifyW (fun w => rfl))

lemma logExtends_updateAction (cfg : Config) (pid : String) (u : NotionActionPatch) :
    logExtends (NotionClient.updateAction cfg pid u) := by
  unfold NotionClient.updateAction
  by_cases hdry : cfg.dryRun = true
  · rw [if_pos hdry]
    exact logExtends_logLine _
  · rw [if_neg hdry]
    exact logExtends_bind (logExtends_netCall cfg)
      (fun _ => logExtends_modifyW (fun w => rfl))

lemma logExtends_listProjects (cfg : Config) : logExtends (GitHubClient.listProjects cfg) := by
  unfold GitHubClient.listProjects
  exact logExtends_bind (logExtends_netCall cfg)
    (fun _ => logExtends_bind logExtends_getWorld (fun w => logExtends_pure _))

lemma logExtends_addIssueToProject (cfg : Config) (iid pid : String) :
    logExtends (GitHubClient.addIssueToProject cfg iid pid) := by
  unfold GitHubClient.addIssueToProject
  by_cases hdry : cfg.dryRun = true
  · rw [if_pos hdry]
    exact logExtends_logLine _
  · rw [if_neg hdry]
    exact logExtends_bind (logExtends_netCall cfg)
      (fun _ => logExtends_modifyW (fun w => rfl))

lemma logExtends_getOrCreateProject (cfg : Config) (title : String) (d : Option String) :
    logExtends (GitHubClient.getOrCreateProject cfg title d) := by
  unfold GitHubClient.getOrCreateProject
  refine logExtends_bind (logExtends_listProjects cfg) (fun eps => ?_)
  cases hfind : eps.find? (fun p => decide (p.title = title)) with
  | some ex => exact logExtends_bind (logExtends_logLine _) (fun _ => logExtends_pure _)
  | none =>
    by_cases hdry : cfg.dryRun = true
    · rw [if_pos hdry]
      exact logExtends_bind (logExtends_logLine _) (fun _ => logExtends_pure _)
    · rw [if_neg hdry]
      refine logExtends_bind (logExtends_netCall cfg) (fun _ => ?_)
      refine logExtends_bind (logExtends_netCall cfg) (fun _ => ?_)
      refine logExtends_bind logExtends_freshNat (fun n => ?_)
      refine logExtends_bind (logExtends_modifyW (fun w => rfl)) (fun _ => ?_)
      exact logExtends_bind (logExtends_logLine _) (fun _ => logExtends_pure _)

lemma logExtends_createIssue (cfg : Config) (repo title : String)
    (body pid : Option String) : logExtends (GitHubClient.createIssue cfg repo title body pid) := by
  unfold GitHubClient.createIssue
  by_cases hdry : cfg.dryRun = true
  · rw [if_pos hdry]
    exact logExtends_bind (logExtends_logLine _) (fun _ => logExtends_pure _)
  · rw [if_neg hdry]
    refine logExtends_bind (logExtends_netCall cfg) (fun _ => ?_)
    refine logExtends_bind (logExtends_netCall cfg) (fun _ => ?_)
    refine logExtends_bind logExtends_freshNat (fun n => ?_)
    refine logExtends_bind (logExtends_modifyW (fun w => rfl)) (fun _ => ?_)
    refine logExtends_bind ?_ (fun _ => logExtends_bind (logExtends_logLine _)
      (fun _ => logExtends_pure _))
    by_cases htr : jsTruthyStr pid = true
    · rw [if_pos htr]
      exact logExtends_addIssueToProject cfg _ _
    · rw [if_neg htr]
      exact logExtends_pure _

lemma logExtends_updateIssue (cfg : Config) (iid : String) (u : IssuePatch) :
    logExtends (GitHubClient.updateIssue cfg iid u) := by
  unfold GitHubClient.updateIssue
  by_cases hdry : cfg.dryRun = true
  · rw [if_pos hdry]
    exact logExtends_logLine _
  · rw [if_neg hdry]
    refine logExtends_bind ?_ (fun _ => ?_)
    · by_cases hc : u.state = some IssueState.CLOSED
      · rw [if_pos hc]
        exact logExtends_bind (logExtends_netCall cfg)
          (fun _ => logExtends_modifyW (fun w => rfl))
      · rw [if_neg hc]
        by_cases ho : u.state = some IssueState.OPEN
        · rw [if_pos ho]
          exact logExtends_bind (logExtends_netCall cfg)
            (fun _ => logExtends_modifyW (fun w => rfl))
        · rw [if_neg ho]
          exact logExtends_pure _
    · by_cases ht : (jsTruthyStr u.title || jsTruthyStr u.body) = true
      · rw [if_pos ht]
        exact logExtends_bind (logExtends_netCall cfg)
          (fun _ => logExtends_modifyW (fun w => rfl))
      · rw [if_neg ht]
        exact logExtends_pure _

lemma logExtends_getIssuesByProject (cfg : Config) (pid : String) :
    logExtends (GitHubClient.getIssuesByProject cfg pid) := by
  unfold GitHubClient.getIssuesByProject
  exact logExtends_bind (logExtends_netCall cfg)
    (fun _ => logExtends_bind logExtends_getWorld (fun w => logExtends_pure _))

lemma logExtends_syncActionBody (cfg : Config) (gis : List GitHubIssue)
    (gp : GitHubProject) (repo : String) (a : NotionAction) :
    logExtends (SyncEngine.syncActionBody cfg gis gp repo a) := by
  unfold SyncEngine.syncActionBody
  by_cases hlink : jsTruthyStr a.githubIssueId = true
  · rw [if_pos hlink]
    cases hfind : gis.find? (fun i => decide (some i.id = a.githubIssueId)) with
    | none => exact logExtends_logLine _
    | some gi =>
      refine logExtends_bind (logExtends_liftThrow_dss _ _ _) (fun st => ?_)
      refine logExtends_bind (logExtends_logLine _) (fun _ => ?_)
      by_cases hc : st.direction = SyncDirection.conflict
      · rw [if_pos hc]
        exact logExtends_logLine _
      · rw [if_neg hc]
        by_cases hn : st.direction = SyncDirection.notionToGithub
        · rw [if_pos hn]
          exact logExtends_bind (logExtends_updateIssue cfg _ _)
            (fun _ => logExtends_bind (logExtends_updateAction cfg _ _)
              (fun _ => logExtends_logLine _))
        · rw [if_neg hn]
          exact logExtends_bind (logExtends_updateAction cfg _ _)
            (fun _ => logExtends_logLine _)
  · rw [if_neg hlink]
    exact logExtends_bind (logExtends_createIssue cfg _ _ _ _)
      (fun i => logExtends_bind (logExtends_updateAction cfg _ _)
        (fun _ => logExtends_logLine _))

lemma logExtends_syncOneAction (cfg : Config) (gis : List GitHubIssue)
    (gp : GitHubProject) (repo : String) (a : NotionAction) :
    logExtends (SyncEngine.syncOneAction cfg gis gp repo a) := by
  unfold SyncEngine.syncOneAction
  exact logExtends_tryCatchM (logExtends_syncActionBody cfg gis gp repo a)
    (fun e => logExtends_logLine _)

lemma logExtends_syncActions (cfg : Config) (np : NotionProject)
    (gp : GitHubProject) (repo : String) :
    logExtends (SyncEngine.syncActions cfg np gp repo) := by
  unfold SyncEngine.syncActions
  refine logExtends_bind (logExtends_logLine _) (fun _ => ?_)
  refine logExtends_bind (logExtends_getActions cfg _) (fun as => ?_)
  refine logExtends_bind (logExtends_getIssuesByProject cfg _) (fun gis => ?_)
  refine logExtends_bind (logExtends_logLine _) (fun _ => ?_)
  exact logExtends_forEachM (fun x _ => logExtends_syncOneAction cfg gis gp repo x)

lemma logExtends_finishProject (cfg : Config) (repo : String) (p : NotionProject)
    (gp : GitHubProject) : logExtends (SyncEngine.finishProject cfg repo p gp) := by
  unfold SyncEngine.finishProject
  exact logExtends_bind (logExtends_updateProject cfg _ _)
    (fun _ => logExtends_bind (logExtends_logLine _)
      (fun _ => logExtends_syncActions cfg p gp repo))

lemma logExtends_syncProjectBody (cfg : Config) (repo : String) (p : NotionProject) :
    logExtends (SyncEngine.syncProjectBody cfg repo p) := by
  unfold SyncEngine.syncProjectBody
  by_cases hlink : jsTruthyStr p.githubProjectId = true
  · rw [if_pos hlink]
    refine logExtends_bind (logExtends_listProjects cfg) (fun gps => ?_)
    cases hfind : gps.find? (fun q => decide (some q.id = p.githubProjectId)) with
    | none =>
      exact logExtends_bind (logExtends_logLine _)
        (fun _ => logExtends_bind (logExtends_getOrCreateProject cfg _ _)
          (fun gp => logExtends_finishProject cfg repo p gp))
    | some gp =>
      refine logExtends_bind (logExtends_liftThrow_dss _ _ _) (fun st => ?_)
      refine logExtends_bind (logExtends_logLine _) (fun _ => ?_)
      by_cases hc : st.direction = SyncDirection.conflict
      · rw [if_pos hc]
        exact logExtends_logLine _
      · rw [if_neg hc]
        exact logExtends_finishProject cfg repo p gp
  · rw [if_neg hlink]
    exact logExtends_bind (logExtends_getOrCreateProject cfg _ _)
      (fun gp => logExtends_finishProject cfg repo p gp)

lemma logExtends_syncOneProject (cfg : Config) (repo : String) (p : NotionProject) :
    logExtends (SyncEngine.syncOneProject cfg repo p) := by
  unfold SyncEngine.syncOneProject
  exact logExtends_bind (logExtends_logLine _)
    (fun _ => logExtends_tryCatchM (logExtends_syncProjectBody cfg repo p)
      (fun e => logExtends_logLine _))

/- C5 infrastructure: the per-project step never throws (its catch handler
   only logs), it always logs its processing banner, and the pass as a whole
   fails exactly when the initial listing fails. -/

lemma noThrow_syncOneProject (cfg : Config) (repo : String) (p : NotionProject) :
    noThrow (SyncEngine.syncOneProject cfg repo p) := by
  unfold SyncEngine.syncOneProject
  exact noThrow_bind (noThrow_logLine _)
    (fun _ => noThrow_tryCatchM _ (fun e => noThrow_logLine _))

lemma syncOneProject_processes (cfg : Config) (repo : String) (p : NotionProject)
    (w : World) :
    ∃ w', SyncEngine.syncOneProject cfg repo p w = Res.ok () w' ∧
      ∃ t, w'.log = w.log ++ ( "\n→ Processing: " ++ p.name) :: t := by
  have h1 : SyncEngine.syncOneProject cfg repo p w =
      tryCatchM (SyncEngine.syncProjectBody cfg repo p)
        (fun e => logLine ( "  ✗ Error syncing project: " ++ e))
        { w with log := w.log ++ [ "\n→ Processing: " ++ p.name] } := rfl
  obtain ⟨a, w', h2⟩ :=
    noThrow_tryCatchM (SyncEngine.syncProjectBody cfg repo p)
      (fun e => noThrow_logLine ( "  ✗ Error syncing project: " ++ e))
      { w with log := w.log ++ [ "\n→ Processing: " ++ p.name] }
  obtain ⟨t, h3⟩ :=
    logExtends_tryCatchM (logExtends_syncProjectBody cfg repo p)
      (fun e => logExtends_logLine ( "  ✗ Error syncing project: " ++ e))
      { w with log := w.log ++ [ "\n→ Processing: " ++ p.name] }
  rw [h2] at h3
  simp only [resWorld_ok] at h3
  cases a
  exact ⟨w', by rw [h1, h2], t, by simp [h3]⟩

lemma forEachM_syncOneProject_processes (cfg : Config) (repo : String)
    (xs : List NotionProject) :
    ∀ w, ∃ w', forEachM xs (SyncEngine.syncOneProject cfg repo) w = Res.ok () w' ∧
      (∃ t, w'.log = w.log ++ t) ∧
      ∀ p ∈ xs, ( "\n→ Processing: " ++ p.name) ∈ w'.log := by
  induction xs with
  | nil =>
    intro w
    exact ⟨w, rfl, ⟨[], by simp⟩, by simp⟩
  | cons x rest ih =>
    intro w
    obtain ⟨w1, h1, t1, hl1⟩ := syncOneProject_processes cfg repo x w
    obtain ⟨w2, h2, ⟨t2, hl2⟩, hmem⟩ := ih w1
    refine ⟨w2, by simp [forEachM, h1, h2], ⟨( "\n→ Processing: " ++ x.name) :: (t1 ++ t2), ?_⟩, ?_⟩
    · rw [hl2, hl1]
      simp
    · intro p hp
      rcases List.mem_cons.mp hp with hpx | hpr
      · subst hpx
        rw [hl2, hl1]
        simp
      · exact hmem p hpr

lemma getProjects_ok_apply {cfg : Config} (w : World) (h : cfg.fails w.calls = false) :
    NotionClient.getProjects cfg w =
      Res.ok w.notion.projects { w with calls := w.calls + 1 } := by
  simp only [NotionClient.getProjects, bind_apply, getWorld_apply, mPure_apply]
  rw [netCall_apply_ok w h]

lemma getProjects_err_apply {cfg : Config} (w : World) (h : cfg.fails w.calls = true) :
    NotionClient.getProjects cfg w =
      Res.err "UpstreamUnavailable" { w with calls := w.calls + 1 } := by
  simp only [NotionClient.getProjects, bind_apply, getWorld_apply, mPure_apply]
  rw [netCall_apply_err w h]

lemma syncProjects_ok_eq (cfg : Config) (repo : String) (w : World)
    (h : cfg.fails w.calls = false) :
    SyncEngine.syncProjects cfg repo w =
      forEachM w.notion.projects (SyncEngine.syncOneProject cfg repo)
        { w with
          log := (w.log ++ [ "\n📊 Syncing Projects...\n"]) ++
            [ "Found " ++ toString w.notion.projects.length ++ " Notion projects"],
          calls := w.calls + 1 } := by
  have h1 : cfg.fails ({ w with log := w.log ++ [ "\n📊 Syncing Projects...\n"] } : World).calls = false := h
  simp only [SyncEngine.syncProjects, bind_apply, logLine_apply]
  rw [getProjects_ok_apply _ h1]

lemma syncProjects_err_eq (cfg : Config) (repo : String) (w : World)
    (h : cfg.fails w.calls = true) :
    SyncEngine.syncProjects cfg repo w =
      Res.err "UpstreamUnavailable"
        { w with log := w.log ++ [ "\n📊 Syncing Projects...\n"], calls := w.calls + 1 } := by
  have h1 : cfg.fails ({ w with log := w.log ++ [ "\n📊 Syncing Projects...\n"] } : World).calls = true := h
  simp only [SyncEngine.syncProjects, bind_apply, logLine_apply]
  rw [getProjects_err_apply _ h1]

lemma syncProjects_ok_ex (cfg : Config) (repo : String) (w : World)
    (h : cfg.fails w.calls = false) :
    ∃ w', SyncEngine.syncProjects cfg repo w = Res.ok () w' ∧
      ∀ p ∈ w.notion.projects, ( "\n→ Processing: " ++ p.name) ∈ w'.log := by
  rw [syncProjects_ok_eq cfg repo w h]
  obtain ⟨w', hw', hext, hmem⟩ :=
    forEachM_syncOneProject_processes cfg repo w.notion.projects
      { w with
        log := (w.log ++ [ "\n📊 Syncing Projects...\n"]) ++
          [ "Found " ++ toString w.notion.projects.length ++ " Notion projects"],
        calls := w.calls + 1 }
  exact ⟨w', hw', fun p hp => hmem p hp⟩

lemma run_eq_tryCatch (cfg : Config) (repo : String) (w : World) :
    ∃ w4 : World, w4.calls = w.calls ∧ w4.notion = w.notion ∧
      SyncEngine.run cfg repo w =
        tryCatchM
          (SyncEngine.syncProjects cfg repo >>= fun _ =>
            logLine ( "\n✅ Sync completed successfully!") >>= fun _ =>
              if cfg.dryRun then
                logLine ( "\n💡 Run with DRY_RUN=false to apply changes")
              else M.pure ())
          (fun e => logLine ( "\n❌ Sync failed: " ++ e) >>= fun _ => throwErr e)
          w4 :=
  ⟨{ w with log := (((w.log ++ [ "🔄 ChittyCan™ Notion ↔ GitHub Sync"]) ++
      [ "===================================="]) ++
      [if cfg.dryRun then "Mode: 🔍 DRY RUN" else "Mode: 🚀 LIVE"]) ++
      [ "Repository: " ++ repo ++ "\n"] },
    rfl, rfl, rfl⟩

/-- Failure-containment core: with the call counter at the start of a run,
the run returns normally exactly when the very first upstream request (the
initial project listing) succeeds — every later per-entity failure is
caught — and a completed run has processed (logged the banner of) every
project of the source store. -/
lemma run_isolation_core (cfg : Config) (repo : String) (w : World)
    (hc : w.calls = 0) :
    Res.isOk (SyncEngine.run cfg repo w) = ! cfg.fails 0
    ∧ (Res.isOk (SyncEngine.run cfg repo w) = true →
        ∀ p ∈ w.notion.projects,
          ( "\n→ Processing: " ++ p.name) ∈ (resWorld (SyncEngine.run cfg repo w)).log) := by
  obtain ⟨w4, hcalls, hnotion, hrun⟩ := run_eq_tryCatch cfg repo w
  have hc4 : w4.calls = 0 := hcalls.trans hc
  cases hf : cfg.fails 0 with
  | true =>
    have herr := syncProjects_err_eq cfg repo w4 (by rw [hc4]; exact hf)
    have hok : Res.isOk (SyncEngine.run cfg repo w) = false := by
      rw [hrun, tryCatchM_apply, bind_apply, herr]
      simp [Res.isOk]
    refine ⟨by simp [hok, hf], fun h => ?_⟩
    rw [hok] at h
    cases h
  | false =>
    obtain ⟨w5, hw5, hmem⟩ := syncProjects_ok_ex cfg repo w4 (by rw [hc4]; exact hf)
    constructor
    · rw [hrun, tryCatchM_apply, bind_apply, hw5]
      by_cases hdry : cfg.dryRun = true <;> simp [hdry, Res.isOk]
    · intro _ p hp
      have hp4 : p ∈ w4.notion.projects := by rw [hnotion]; exact hp
      have hline := hmem p hp4
      rw [hrun, tryCatchM_apply, bind_apply, hw5]
      by_cases hdry : cfg.dryRun = true <;>
        simp only [hdry, bind_apply, logLine_apply, mPure_apply, if_true, if_false,
          Bool.true_eq_false, Bool.false_eq_true, resWorld_ok, ite_true, ite_false]
      · exact List.mem_append_left _ (List.mem_append_left _ hline)
      · exact List.mem_append_left _ hline

lemma dirOf_eq_some {nt gt : Option Int} {ls : Option (Option Int)} {d : SyncDirection}
    (h : dirOf (determineSyncDirection nt gt ls) = some d) :
    (syncStateOf nt gt ls).direction = d := by
  rw [determineSyncDirection_eq] at h
  simpa [dirOf] using h

lemma listProjects_ok_apply {cfg : Config} (w : World) (h : cfg.fails w.calls = false) :
    GitHubClient.listProjects cfg w =
      Res.ok w.github.projects { w with calls := w.calls + 1 } := by
  simp only [GitHubClient.listProjects, bind_apply, getWorld_apply, mPure_apply]
  rw [netCall_apply_ok w h]

lemma syncOneProject_conflict_clean (cfg : Config) (repo : String)
    (project : NotionProject) (g : GitHubProject) (w : World)
    (hfails : ∀ n, cfg.fails n = false)
    (hlink : jsTruthyStr project.githubProjectId = true)
    (hfind : w.github.projects.find?
      (fun q => decide (some q.id = project.githubProjectId)) = some g)
    (hdir : dirOf (determineSyncDirection project.updatedAt g.updatedAt
      project.lastSyncAt) = some SyncDirection.conflict) :
    ∃ w', SyncEngine.syncOneProject cfg repo project w = Res.ok () w' ∧ sameData w w' := by
  have hdir' := dirOf_eq_some hdir
  simp only [SyncEngine.syncOneProject, bind_apply, logLine_apply, tryCatchM_apply]
  simp only [SyncEngine.syncProjectBody]
  rw [if_pos hlink]
  simp only [bind_apply]
  rw [listProjects_ok_apply _ (hfails _)]
  simp only [hfind, determineSyncDirection_eq, liftThrow, mPure_apply, bind_apply,
    logLine_apply]
  rw [if_pos hdir']
  simp only [logLine_apply]
  exact ⟨_, rfl, rfl, rfl, rfl⟩

lemma syncOneAction_conflict_clean (cfg : Config) (gis : List GitHubIssue)
    (gp : GitHubProject) (repo : String) (action : NotionAction)
    (issue : GitHubIssue) (w : World)
    (hlink : jsTruthyStr action.githubIssueId = true)
    (hfind : gis.find? (fun i => decide (some i.id = action.githubIssueId)) = some issue)
    (hdir : dirOf (determineSyncDirection action.updatedAt issue.updatedAt
      action.lastSyncAt) = some SyncDirection.conflict) :
    ∃ w', SyncEngine.syncOneAction cfg gis gp repo action w = Res.ok () w' ∧ sameData w w' := by
  have hdir' := dirOf_eq_some hdir
  simp only [SyncEngine.syncOneAction, tryCatchM_apply, SyncEngine.syncActionBody]
  rw [if_pos hlink]
  simp only [hfind, determineSyncDirection_eq, liftThrow, mPure_apply, bind_apply,
    logLine_apply]
  rw [if_pos hdir']
  simp only [logLine_apply]
  exact ⟨_, rfl, rfl, rfl, rfl⟩

/-- C2: on a conflict decision the engine writes neither side.  For a linked
project resolved to its Board counterpart whose decision is Conflict, the
per-project step returns normally (the loop proceeds) leaving both stores and
the real-write trace untouched — in particular no upsert and no create runs,
so the stored lastSyncAt checkpoint is unchanged; likewise for a linked item. -/
theorem c2_conflict_writes_nothing (cfg : Config) (repo : String)
    (project : NotionProject) (g : GitHubProject)
    (gis : List GitHubIssue) (gp : GitHubProject)
    (action : NotionAction) (issue : GitHubIssue) (w : World)
    (hfails : ∀ n, cfg.fails n = false)
    (hplink : jsTruthyStr project.githubProjectId = true)
    (hpfind : w.github.projects.find?
      (fun q => decide (some q.id = project.githubProjectId)) = some g)
    (hpdir : dirOf (determineSyncDirection project.updatedAt g.updatedAt
      project.lastSyncAt) = some SyncDirection.conflict)
    (halink : jsTruthyStr action.githubIssueId = true)
    (hafind : gis.find? (fun i => decide (some i.id = action.githubIssueId)) = some issue)
    (hadir : dirOf (determineSyncDirection action.updatedAt issue.updatedAt
      action.lastSyncAt) = some SyncDirection.conflict) :
    (∃ w', SyncEngine.syncOneProject cfg repo project w = Res.ok () w' ∧ sameData w w')
    ∧ (∃ w', SyncEngine.syncOneAction cfg gis gp repo action w = Res.ok () w' ∧ sameData w w') :=
  ⟨syncOneProject_conflict_clean cfg repo project g w hfails hplink hpfind hpdir,
   syncOneAction_conflict_clean cfg gis gp repo action issue w halink hafind hadir⟩

/-- C2 witness: a concrete conflicted project pair and item pair, both with
timestamps ahead of their checkpoints on both sides. -/
theorem c2_conflict_writes_nothing_witness :
    (∃ w', SyncEngine.syncOneProject ⟨false, fun _ => false, 1000⟩ "chittyreception"
        ⟨ "n1", "Alpha", "In Progress", none, some "g1", none, some (some 10), some 100⟩
        ⟨⟨[], []⟩, ⟨[⟨ "g1", 1, "Alpha", "u", none, some 20⟩], [], []⟩, [], [], 0, 0⟩ =
        Res.ok () w' ∧
        sameData ⟨⟨[], []⟩, ⟨[⟨ "g1", 1, "Alpha", "u", none, some 20⟩], [], []⟩, [], [], 0, 0⟩ w')
    ∧ (∃ w', SyncEngine.syncOneAction ⟨false, fun _ => false, 1000⟩
        [⟨ "i1", 1, "Task", none, IssueState.OPEN, "u", some 30⟩]
        ⟨ "g1", 1, "Alpha", "u", none, some 20⟩ "chittyreception"
        ⟨ "a1", "Task", "In Progress", some "n1", some "i1", none, none, none,
          some (some 5), some 100⟩
        ⟨⟨[], []⟩, ⟨[⟨ "g1", 1, "Alpha", "u", none, some 20⟩], [], []⟩, [], [], 0, 0⟩ =
        Res.ok () w' ∧
        sameData ⟨⟨[], []⟩, ⟨[⟨ "g1", 1, "Alpha", "u", none, some 20⟩], [], []⟩, [], [], 0, 0⟩ w') :=
  c2_conflict_writes_nothing ⟨false, fun _ => false, 1000⟩ "chittyreception"
    ⟨ "n1", "Alpha", "In Progress", none, some "g1", none, some (some 10), some 100⟩
    ⟨ "g1", 1, "Alpha", "u", none, some 20⟩
    [⟨ "i1", 1, "Task", none, IssueState.OPEN, "u", some 30⟩]
    ⟨ "g1", 1, "Alpha", "u", none, some 20⟩
    ⟨ "a1", "Task", "In Progress", some "n1", some "i1", none, none, none,
      some (some 5), some 100⟩
    ⟨ "i1", 1, "Task", none, IssueState.OPEN, "u", some 30⟩
    ⟨⟨[], []⟩, ⟨[⟨ "g1", 1, "Alpha", "u", none, some 20⟩], [], []⟩, [], [], 0, 0⟩
    (fun _ => rfl) (by decide) (by decide) (by decide) (by decide) (by decide) (by decide)

lemma syncOneAction_g2n (cfg : Config) (gis : List GitHubIssue)
    (gp : GitHubProject) (repo : String) (action : NotionAction)
    (issue : GitHubIssue) (w : World)
    (hdryN : cfg.dryRun = false)
    (hfails : ∀ n, cfg.fails n = false)
    (hlink : jsTruthyStr action.githubIssueId = true)
    (hfind : gis.find? (fun i => decide (some i.id = action.githubIssueId)) = some issue)
    (hdir : dirOf (determineSyncDirection action.updatedAt issue.updatedAt
      action.lastSyncAt) = some SyncDirection.githubToNotion) :
    ∃ w', SyncEngine.syncOneAction cfg gis gp repo action w = Res.ok () w' ∧
      w'.github = w.github ∧
      w'.notion.projects = w.notion.projects ∧
      w'.notion.actions = w.notion.actions.map (fun a =>
        if a.id = action.id then
          { a with
            status := GITHUB_TO_NOTION_STATUS issue.state,
            lastSyncAt := some (some cfg.now) }
        else a) ∧
      w'.writes = w.writes ++ [WriteOp.notionUpdateAction action.id
        ⟨none, none, none, some (GITHUB_TO_NOTION_STATUS issue.state)⟩] := by
  have hdir' := dirOf_eq_some hdir
  simp only [SyncEngine.syncOneAction, tryCatchM_apply, SyncEngine.syncActionBody]
  rw [if_pos hlink]
  simp only [hfind, determineSyncDirection_eq, liftThrow, mPure_apply, bind_apply,
    logLine_apply]
  rw [if_neg (by simp [hdir']), if_neg (by simp [hdir'])]
  simp only [NotionClient.updateAction]
  rw [if_neg (by simp [hdryN])]
  simp only [bind_apply]
  rw [netCall_apply_ok _ (hfails _)]
  simp only [modifyW_apply, logLine_apply]
  cases hstate : issue.state <;>
    refine ⟨_, rfl, rfl, rfl, ?_, ?_⟩ <;>
      simp [hstate, applyNotionActionPatch, jsTruthyStr, jsTruthyInt, jsOrStr,
        GITHUB_TO_NOTION_STATUS]


lemma syncOneAction_n2g (cfg : Config) (gis : List GitHubIssue)
    (gp : GitHubProject) (repo : String) (action : NotionAction)
    (issue : GitHubIssue) (w : World)
    (hdryN : cfg.dryRun = false)
    (hfails : ∀ n, cfg.fails n = false)
    (hlink : jsTruthyStr action.githubIssueId = true)
    (hfind : gis.find? (fun i => decide (some i.id = action.githubIssueId)) = some issue)
    (hdir : dirOf (determineSyncDirection action.updatedAt issue.updatedAt
      action.lastSyncAt) = some SyncDirection.notionToGithub)
    (htitle : action.title ≠ "") :
    ∃ w', SyncEngine.syncOneAction cfg gis gp repo action w = Res.ok () w' ∧
      w'.notion.projects = w.notion.projects ∧
      w'.github.projects = w.github.projects ∧
      w'.github.memberships = w.github.memberships ∧
      w'.github.issues = w.github.issues.map (fun i =>
        if i.id = issue.id then
          { i with
            state := trackerStatusToBoardState action.status,
            title := action.title,
            body := match action.description with | some d => some d | none => i.body }
        else i) ∧
      w'.notion.actions = w.notion.actions.map (fun a =>
        if a.id = action.id then { a with lastSyncAt := some (some cfg.now) } else a) ∧
      w'.writes = ((w.writes ++
        (if trackerStatusToBoardState action.status = IssueState.CLOSED then
          [WriteOp.githubCloseIssue issue.id]
        else [WriteOp.githubReopenIssue issue.id])) ++
        [WriteOp.githubEditIssue issue.id (some action.title) action.description]) ++
        [WriteOp.notionUpdateAction action.id ⟨none, none, none, none⟩] := by
  have hdir' := dirOf_eq_some hdir
  have hedit : (jsTruthyStr (some action.title) || jsTruthyStr action.description) = true := by
    simp [jsTruthyStr, htitle]
  have hnet : ∀ v : World, netCall cfg v = Res.ok () { v with calls := v.calls + 1 } :=
    fun v => netCall_apply_ok v (hfails _)
  simp only [SyncEngine.syncOneAction, tryCatchM_apply, SyncEngine.syncActionBody]
  rw [if_pos hlink]
  simp only [hfind, determineSyncDirection_eq, liftThrow, mPure_apply, bind_apply,
    logLine_apply]
  rw [if_neg (by simp [hdir']), if_pos hdir']
  simp only [GitHubClient.updateIssue, NotionClient.updateAction]
  have htb : (NOTION_TO_GITHUB_STATUS action.status).getD IssueState.OPEN =
      trackerStatusToBoardState action.status := rfl
  rw [htb]
  cases hstate : trackerStatusToBoardState action.status
  · simp [hstate, hdryN, hnet, hedit, bind_apply, modifyW_apply, logLine_apply,
      mPure_apply]
    constructor
    · intro a _
      by_cases ha : a.id = issue.id <;> simp [ha]
    · intro a _
      by_cases ha : a.id = action.id <;>
        simp [ha, applyNotionActionPatch, jsTruthyStr, jsTruthyInt]
  · simp [hstate, hdryN, hnet, hedit, bind_apply, modifyW_apply, logLine_apply,
      mPure_apply]
    constructor
    · intro a _
      by_cases ha : a.id = issue.id <;> simp [ha]
    · intro a _
      by_cases ha : a.id = action.id <;>
        simp [ha, applyNotionActionPatch, jsTruthyStr, jsTruthyInt]

lemma syncOneProject_link_only (cfg : Config) (repo : String)
    (project : NotionProject) (g : GitHubProject) (d : SyncDirection) (w : World)
    (hdryN : cfg.dryRun = false)
    (hfails : ∀ n, cfg.fails n = false)
    (hlink : jsTruthyStr project.githubProjectId = true)
    (hfind : w.github.projects.find?
      (fun q => decide (some q.id = project.githubProjectId)) = some g)
    (hdir : dirOf (determineSyncDirection project.updatedAt g.updatedAt
      project.lastSyncAt) = some d)
    (hdc : d ≠ SyncDirection.conflict)
    (hnoacts : w.notion.actions.filter
      (fun a => decide (a.projectId = some project.id)) = []) :
    ∃ w', SyncEngine.syncOneProject cfg repo project w = Res.ok () w' ∧
      w'.github = w.github ∧
      w'.notion.actions = w.notion.actions ∧
      w'.notion.projects = w.notion.projects.map (fun p =>
        if p.id = project.id then
          applyNotionProjectPatch cfg.now ⟨some g.id, some g.url, none⟩ p
        else p) ∧
      w'.writes = w.writes ++
        [WriteOp.notionUpdateProject project.id ⟨some g.id, some g.url, none⟩] ∧
      ∀ p' ∈ w'.notion.projects, ∃ p ∈ w.notion.projects,
        p'.name = p.name ∧ p'.status = p.status ∧ p'.description = p.description := by
  have hdir' := dirOf_eq_some hdir
  have hnet : ∀ v : World, netCall cfg v = Res.ok () { v with calls := v.calls + 1 } :=
    fun v => netCall_apply_ok v (hfails _)
  have hnc : ¬ (syncStateOf project.updatedAt g.updatedAt project.lastSyncAt).direction =
      SyncDirection.conflict := by
    rw [hdir']
    exact hdc
  simp only [SyncEngine.syncOneProject, bind_apply, logLine_apply, tryCatchM_apply,
    SyncEngine.syncProjectBody]
  rw [if_pos hlink]
  simp only [GitHubClient.listProjects, bind_apply, getWorld_apply, mPure_apply, hnet]
  simp only [hfind, determineSyncDirection_eq, liftThrow, mPure_apply, bind_apply,
    logLine_apply]
  rw [if_neg hnc]
  simp only [SyncEngine.finishProject, NotionClient.updateProject]
  rw [if_neg (by simp [hdryN])]
  simp only [bind_apply, hnet, modifyW_apply, logLine_apply,
    SyncEngine.syncActions, NotionClient.getActions, GitHubClient.getIssuesByProject,
    getWorld_apply, mPure_apply]
  simp only [hnoacts, forEachM, mPure_apply]
  refine ⟨_, rfl, rfl, rfl, rfl, rfl, ?_⟩
  intro p' hp'
  simp only [List.mem_map] at hp'
  obtain ⟨p, hp, hpe⟩ := hp'
  refine ⟨p, hp, ?_⟩
  rw [← hpe]
  by_cases hid : p.id = project.id <;> simp [hid, applyNotionProjectPatch]

set_option maxHeartbeats 2000000 in
/-- C7 counterexample: a live run over one already-linked project pair whose
direction is notion-to-github (left changed, right did not) completes but
leaves the Board project record entirely unchanged, although its title and
description differ from the Tracker side — so the claimed title, description
and status propagation for linked projects does not happen. -/
theorem c7_propagation_counterexample :
    Res.isOk (SyncEngine.run ⟨false, fun _ => false, 1000⟩ "chittyreception"
      ⟨⟨[⟨ "n1", "Alpha", "In Progress", some "new desc", some "g1", some "u",
          some (some 50), some 100⟩], []⟩,
        ⟨[⟨ "g1", 1, "OldTitle", "u", some "old desc", some 10⟩], [], []⟩,
        [], [], 0, 0⟩) = true
    ∧ dirOf (determineSyncDirection (some 100) (some 10) (some (some 50))) =
        some SyncDirection.notionToGithub
    ∧ (resWorld (SyncEngine.run ⟨false, fun _ => false, 1000⟩ "chittyreception"
        ⟨⟨[⟨ "n1", "Alpha", "In Progress", some "new desc", some "g1", some "u",
            some (some 50), some 100⟩], []⟩,
          ⟨[⟨ "g1", 1, "OldTitle", "u", some "old desc", some 10⟩], [], []⟩,
          [], [], 0, 0⟩)).github.projects =
        [⟨ "g1", 1, "OldTitle", "u", some "old desc", some 10⟩]
    ∧ ( "OldTitle" : String) ≠ "Alpha"
    ∧ (some "old desc" : Option String) ≠ some "new desc" := by
  refine ⟨rfl, by decide, rfl, by decide, by decide⟩

/-- C7 amended: propagation on non-conflicting linked pairs is narrower than
claimed.  For items, notion-to-github propagates title, description and the
mapped status onto the issue (and stamps the checkpoint); github-to-notion
propagates only the mapped status (plus the checkpoint), never title or
description.  For projects, nothing is propagated in either direction: the
only write is the counterpart-link patch (id and url) with its checkpoint
stamp, and every project keeps its name, status and description on both
stores. -/
theorem c7_propagation_amended (cfg : Config) (repo : String)
    (gis : List GitHubIssue) (gp : GitHubProject)
    (action : NotionAction) (issue : GitHubIssue)
    (action2 : NotionAction) (issue2 : GitHubIssue)
    (project : NotionProject) (g : GitHubProject) (d : SyncDirection) (w : World)
    (hdryN : cfg.dryRun = false)
    (hfails : ∀ n, cfg.fails n = false)
    (halink : jsTruthyStr action.githubIssueId = true)
    (hafind : gis.find? (fun i => decide (some i.id = action.githubIssueId)) = some issue)
    (hadir : dirOf (determineSyncDirection action.updatedAt issue.updatedAt
      action.lastSyncAt) = some SyncDirection.notionToGithub)
    (htitle : action.title ≠ "")
    (hblink : jsTruthyStr action2.githubIssueId = true)
    (hbfind : gis.find? (fun i => decide (some i.id = action2.githubIssueId)) = some issue2)
    (hbdir : dirOf (determineSyncDirection action2.updatedAt issue2.updatedAt
      action2.lastSyncAt) = some SyncDirection.githubToNotion)
    (hplink : jsTruthyStr project.githubProjectId = true)
    (hpfind : w.github.projects.find?
      (fun q => decide (some q.id = project.githubProjectId)) = some g)
    (hpdir : dirOf (determineSyncDirection project.updatedAt g.updatedAt
      project.lastSyncAt) = some d)
    (hpdc : d ≠ SyncDirection.conflict)
    (hnoacts : w.notion.actions.filter
      (fun a => decide (a.projectId = some project.id)) = []) :
    (∃ w', SyncEngine.syncOneAction cfg gis gp repo action w = Res.ok () w' ∧
      w'.notion.projects = w.notion.projects ∧
      w'.github.projects = w.github.projects ∧
      w'.github.memberships = w.github.memberships ∧
      w'.github.issues = w.github.issues.map (fun i =>
        if i.id = issue.id then
          { i with
            state := trackerStatusToBoardState action.status,
            title := action.title,
            body := match action.description with | some dd => some dd | none => i.body }
        else i) ∧
      w'.notion.actions = w.notion.actions.map (fun a =>
        if a.id = action.id then { a with lastSyncAt := some (some cfg.now) } else a) ∧
      w'.writes = ((w.writes ++
        (if trackerStatusToBoardState action.status = IssueState.CLOSED then
          [WriteOp.githubCloseIssue issue.id]
        else [WriteOp.githubReopenIssue issue.id])) ++
        [WriteOp.githubEditIssue issue.id (some action.title) action.description]) ++
        [WriteOp.notionUpdateAction action.id ⟨none, none, none, none⟩])
    ∧ (∃ w', SyncEngine.syncOneAction cfg gis gp repo action2 w = Res.ok () w' ∧
      w'.github = w.github ∧
      w'.notion.projects = w.notion.projects ∧
      w'.notion.actions = w.notion.actions.map (fun a =>
        if a.id = action2.id then
          { a with
            status := GITHUB_TO_NOTION_STATUS issue2.state,
            lastSyncAt := some (some cfg.now) }
        else a) ∧
      w'.writes = w.writes ++ [WriteOp.notionUpdateAction action2.id
        ⟨none, none, none, some (GITHUB_TO_NOTION_STATUS issue2.state)⟩])
    ∧ (∃ w', SyncEngine.syncOneProject cfg repo project w = Res.ok () w' ∧
      w'.github = w.github ∧
      w'.notion.actions = w.notion.actions ∧
      w'.notion.projects = w.notion.projects.map (fun p =>
        if p.id = project.id then
          applyNotionProjectPatch cfg.now ⟨some g.id, some g.url, none⟩ p
        else p) ∧
      w'.writes = w.writes ++
        [WriteOp.notionUpdateProject project.id ⟨some g.id, some g.url, none⟩] ∧
      ∀ p' ∈ w'.notion.projects, ∃ p ∈ w.notion.projects,
        p'.name = p.name ∧ p'.status = p.status ∧ p'.description = p.description) :=
  ⟨syncOneAction_n2g cfg gis gp repo action issue w hdryN hfails halink hafind hadir htitle,
   syncOneAction_g2n cfg gis gp repo action2 issue2 w hdryN hfails hblink hbfind hbdir,
   syncOneProject_link_only cfg repo project g d w hdryN hfails hplink hpfind hpdir
     hpdc hnoacts⟩

/-- C7 amended witness: concrete linked pairs exercising all three parts —
a notion-to-github item, a github-to-notion item, and a non-conflicting
linked project. -/
theorem c7_propagation_amended_witness :
    (let cfg : Config := ⟨false, fun _ => false, 1000⟩
     let iA : GitHubIssue := ⟨ "i1", 1, "Old", none, IssueState.OPEN, "u", some 10⟩
     let iB : GitHubIssue := ⟨ "i2", 2, "OldB", none, IssueState.CLOSED, "u", some 100⟩
     let gis : List GitHubIssue := [iA, iB]
     let gp : GitHubProject := ⟨ "g1", 1, "Alpha", "u", none, some 10⟩
     let action : NotionAction :=
       ⟨ "a1", "Task", "Completed", some "n1", some "i1", none, none, some "D",
         some (some 50), some 100⟩
     let action2 : NotionAction :=
       ⟨ "a2", "TaskB", "In Progress", some "n1", some "i2", none, none, none,
         some (some 50), some 10⟩
     let project : NotionProject :=
       ⟨ "n1", "Alpha", "In Progress", none, some "g1", some "u",
         some (some 50), some 100⟩
     let w : World := ⟨⟨[project], []⟩, ⟨[gp], [], []⟩, [], [], 0, 0⟩
     (∃ w', SyncEngine.syncOneAction cfg gis gp "chittyreception" action w = Res.ok () w' ∧
       w'.notion.projects = w.notion.projects ∧
       w'.github.projects = w.github.projects ∧
       w'.github.memberships = w.github.memberships ∧
       w'.github.issues = w.github.issues.map (fun i =>
         if i.id = iA.id then
           { i with
             state := trackerStatusToBoardState action.status,
             title := action.title,
             body := match action.description with | some dd => some dd | none => i.body }
         else i) ∧
       w'.notion.actions = w.notion.actions.map (fun a =>
         if a.id = action.id then { a with lastSyncAt := some (some cfg.now) } else a) ∧
       w'.writes = ((w.writes ++
         (if trackerStatusToBoardState action.status = IssueState.CLOSED then
           [WriteOp.githubCloseIssue iA.id]
         else [WriteOp.githubReopenIssue iA.id])) ++
         [WriteOp.githubEditIssue iA.id (some action.title) action.description]) ++
         [WriteOp.notionUpdateAction action.id ⟨none, none, none, none⟩])
     ∧ (∃ w', SyncEngine.syncOneAction cfg gis gp "chittyreception" action2 w = Res.ok () w' ∧
       w'.github = w.github ∧
       w'.notion.projects = w.notion.projects ∧
       w'.notion.actions = w.notion.actions.map (fun a =>
         if a.id = action2.id then
           { a with
             status := GITHUB_TO_NOTION_STATUS iB.state,
             lastSyncAt := some (some cfg.now) }
         else a) ∧
       w'.writes = w.writes ++ [WriteOp.notionUpdateAction action2.id
         ⟨none, none, none, some (GITHUB_TO_NOTION_STATUS iB.state)⟩])
     ∧ (∃ w', SyncEngine.syncOneProject cfg "chittyreception" project w = Res.ok () w' ∧
       w'.github = w.github ∧
       w'.notion.actions = w.notion.actions ∧
       w'.notion.projects = w.notion.projects.map (fun p =>
         if p.id = project.id then
           applyNotionProjectPatch cfg.now ⟨some gp.id, some gp.url, none⟩ p
         else p) ∧
       w'.writes = w.writes ++
         [WriteOp.notionUpdateProject project.id ⟨some gp.id, some gp.url, none⟩] ∧
       ∀ p' ∈ w'.notion.projects, ∃ p ∈ w.notion.projects,
         p'.name = p.name ∧ p'.status = p.status ∧ p'.description = p.description)) := by
  exact c7_propagation_amended ⟨false, fun _ => false, 1000⟩ "chittyreception"
    [⟨ "i1", 1, "Old", none, IssueState.OPEN, "u", some 10⟩,
     ⟨ "i2", 2, "OldB", none, IssueState.CLOSED, "u", some 100⟩]
    ⟨ "g1", 1, "Alpha", "u", none, some 10⟩
    ⟨ "a1", "Task", "Completed", some "n1", some "i1", none, none, some "D",
      some (some 50), some 100⟩
    ⟨ "i1", 1, "Old", none, IssueState.OPEN, "u", some 10⟩
    ⟨ "a2", "TaskB", "In Progress", some "n1", some "i2", none, none, none,
      some (some 50), some 10⟩
    ⟨ "i2", 2, "OldB", none, IssueState.CLOSED, "u", some 100⟩
    ⟨ "n1", "Alpha", "In Progress", none, some "g1", some "u",
      some (some 50), some 100⟩
    ⟨ "g1", 1, "Alpha", "u", none, some 10⟩
    SyncDirection.notionToGithub
    ⟨⟨[⟨ "n1", "Alpha", "In Progress", none, some "g1", some "u",
        some (some 50), some 100⟩], []⟩,
      ⟨[⟨ "g1", 1, "Alpha", "u", none, some 10⟩], [], []⟩, [], [], 0, 0⟩
    rfl (fun _ => rfl) (by decide) (by decide) (by decide) (by decide)
    (by decide) (by decide) (by decide) (by decide) (by decide) (by decide)
    (by decide) rfl

lemma syncOneProject_stale_relink (cfg : Config) (repo : String)
    (project : NotionProject) (g : GitHubProject) (w : World)
    (hdryN : cfg.dryRun = false)
    (hfails : ∀ n, cfg.fails n = false)
    (hlink : jsTruthyStr project.githubProjectId = true)
    (hfindid : w.github.projects.find?
      (fun q => decide (some q.id = project.githubProjectId)) = none)
    (hfindtitle : w.github.projects.find?
      (fun p => decide (p.title = project.name)) = some g)
    (hnoacts : w.notion.actions.filter
      (fun a => decide (a.projectId = some project.id)) = []) :
    ∃ w', SyncEngine.syncOneProject cfg repo project w = Res.ok () w' ∧
      ( "  ⚠️  Linked GitHub project not found, creating new one") ∈ w'.log ∧
      w'.github = w.github ∧
      w'.notion.actions = w.notion.actions ∧
      w'.notion.projects = w.notion.projects.map (fun p =>
        if p.id = project.id then
          applyNotionProjectPatch cfg.now ⟨some g.id, some g.url, none⟩ p
        else p) ∧
      w'.writes = w.writes ++
        [WriteOp.notionUpdateProject project.id ⟨some g.id, some g.url, none⟩] := by
  have hnet : ∀ v : World, netCall cfg v = Res.ok () { v with calls := v.calls + 1 } :=
    fun v => netCall_apply_ok v (hfails _)
  simp only [SyncEngine.syncOneProject, bind_apply, logLine_apply, tryCatchM_apply,
    SyncEngine.syncProjectBody]
  rw [if_pos hlink]
  simp only [GitHubClient.listProjects, bind_apply, getWorld_apply, mPure_apply, hnet]
  simp only [hfindid, logLine_apply, GitHubClient.getOrCreateProject,
    GitHubClient.listProjects, bind_apply, getWorld_apply, mPure_apply, hnet]
  simp only [hfindtitle, logLine_apply, mPure_apply, bind_apply]
  simp only [SyncEngine.finishProject, NotionClient.updateProject]
  rw [if_neg (by simp [hdryN])]
  simp only [bind_apply, hnet, modifyW_apply, logLine_apply, SyncEngine.syncActions,
    NotionClient.getActions, GitHubClient.getIssuesByProject, getWorld_apply, mPure_apply]
  simp only [hnoacts, forEachM, mPure_apply]
  refine ⟨_, rfl, ?_, rfl, rfl, rfl, rfl⟩
  simp

lemma syncOneAction_stale_skips (cfg : Config) (gis : List GitHubIssue)
    (gp : GitHubProject) (repo : String) (action : NotionAction) (w : World)
    (halink : jsTruthyStr action.githubIssueId = true)
    (hifind : gis.find? (fun i => decide (some i.id = action.githubIssueId)) = none) :
    ∃ w', SyncEngine.syncOneAction cfg gis gp repo action w = Res.ok () w' ∧
      sameData w w' ∧
      w'.log = w.log ++ [ "    ⚠️  Linked GitHub issue not found for: " ++ action.title] := by
  simp only [SyncEngine.syncOneAction, tryCatchM_apply, SyncEngine.syncActionBody]
  rw [if_pos halink]
  simp only [hifind, logLine_apply]
  exact ⟨_, rfl, ⟨rfl, rfl, rfl⟩, rfl⟩

/-- C8 amended: the self-healing re-link exists for projects only.  A project
whose stored counterpart id no longer resolves logs the warning and falls
through to get-or-create, which here matches an existing Board project by
exact title and re-links it without creating anything; an item whose stored
issue link no longer resolves merely logs a warning and is skipped — no
create, no match, no write. -/
theorem c8_self_heal_amended (cfg : Config) (repo : String)
    (project : NotionProject) (g : GitHubProject)
    (gis : List GitHubIssue) (gp : GitHubProject) (action : NotionAction) (w : World)
    (hdryN : cfg.dryRun = false)
    (hfails : ∀ n, cfg.fails n = false)
    (hplink : jsTruthyStr project.githubProjectId = true)
    (hpfindid : w.github.projects.find?
      (fun q => decide (some q.id = project.githubProjectId)) = none)
    (hpfindtitle : w.github.projects.find?
      (fun p => decide (p.title = project.name)) = some g)
    (hnoacts : w.notion.actions.filter
      (fun a => decide (a.projectId = some project.id)) = [])
    (halink : jsTruthyStr action.githubIssueId = true)
    (hifind : gis.find? (fun i => decide (some i.id = action.githubIssueId)) = none) :
    (∃ w', SyncEngine.syncOneProject cfg repo project w = Res.ok () w' ∧
      ( "  ⚠️  Linked GitHub project not found, creating new one") ∈ w'.log ∧
      w'.github = w.github ∧
      w'.notion.actions = w.notion.actions ∧
      w'.notion.projects = w.notion.projects.map (fun p =>
        if p.id = project.id then
          applyNotionProjectPatch cfg.now ⟨some g.id, some g.url, none⟩ p
        else p) ∧
      w'.writes = w.writes ++
        [WriteOp.notionUpdateProject project.id ⟨some g.id, some g.url, none⟩])
    ∧ (∃ w', SyncEngine.syncOneAction cfg gis gp repo action w = Res.ok () w' ∧
      sameData w w' ∧
      w'.log = w.log ++ [ "    ⚠️  Linked GitHub issue not found for: " ++ action.title]) :=
  ⟨syncOneProject_stale_relink cfg repo project g w hdryN hfails hplink hpfindid
      hpfindtitle hnoacts,
   syncOneAction_stale_skips cfg gis gp repo action w halink hifind⟩

/-- C8 amended witness: a concrete stale-linked project re-linked by exact
title match, and a concrete stale-linked action that is skipped. -/
theorem c8_self_heal_amended_witness :
    (let cfg : Config := ⟨false, fun _ => false, 1000⟩
     let g : GitHubProject := ⟨ "g2", 2, "Alpha", "u2", none, some 0⟩
     let project : NotionProject :=
       ⟨ "n1", "Alpha", "In Progress", none, some "gone", some "u", none, some 100⟩
     let action : NotionAction :=
       ⟨ "a1", "Task", "In Progress", some "n1", some "missing", none, none, none,
         none, some 100⟩
     let gp : GitHubProject := ⟨ "g2", 2, "Alpha", "u2", none, some 0⟩
     let w : World := ⟨⟨[project], []⟩, ⟨[g], [], []⟩, [], [], 0, 0⟩
     (∃ w', SyncEngine.syncOneProject cfg "chittyreception" project w = Res.ok () w' ∧
       ( "  ⚠️  Linked GitHub project not found, creating new one") ∈ w'.log ∧
       w'.github = w.github ∧
       w'.notion.actions = w.notion.actions ∧
       w'.notion.projects = w.notion.projects.map (fun p =>
         if p.id = project.id then
           applyNotionProjectPatch cfg.now ⟨some g.id, some g.url, none⟩ p
         else p) ∧
       w'.writes = w.writes ++
         [WriteOp.notionUpdateProject project.id ⟨some g.id, some g.url, none⟩])
     ∧ (∃ w', SyncEngine.syncOneAction cfg [] gp "chittyreception" action w = Res.ok () w' ∧
       sameData w w' ∧
       w'.log = w.log ++ [ "    ⚠️  Linked GitHub issue not found for: " ++ action.title])) := by
  exact c8_self_heal_amended ⟨false, fun _ => false, 1000⟩ "chittyreception"
    ⟨ "n1", "Alpha", "In Progress", none, some "gone", some "u", none, some 100⟩
    ⟨ "g2", 2, "Alpha", "u2", none, some 0⟩
    [] ⟨ "g2", 2, "Alpha", "u2", none, some 0⟩
    ⟨ "a1", "Task", "In Progress", some "n1", some "missing", none, none, none,
      none, some 100⟩
    ⟨⟨[⟨ "n1", "Alpha", "In Progress", none, some "gone", some "u", none, some 100⟩], []⟩,
      ⟨[⟨ "g2", 2, "Alpha", "u2", none, some 0⟩], [], []⟩, [], [], 0, 0⟩
    rfl (fun _ => rfl) (by decide) (by decide) (by decide) rfl (by decide) rfl

set_option maxHeartbeats 1000000 in
/-- C8 counterexample: the per-item engine step over an action whose stored
issue link resolves to nothing (the fetched issue list is empty) returns
normally, logs the warning, and performs no write at all, leaving both stores
unchanged — whereas the very same step over the same action with no stored
link creates and links a Board issue (one created issue, three real writes).
So a stale item link is not treated as unlinked: the claimed create-or-match
fall-through does not run for items. -/
theorem c8_self_heal_counterexample :
    SyncEngine.syncOneAction ⟨false, fun _ => false, 1000⟩ []
        ⟨ "g1", 1, "Alpha", "u", none, some 0⟩ "chittyreception"
        ⟨ "a1", "Task", "In Progress", some "n1", some "missing", none, none, none,
          none, some 100⟩
        ⟨⟨[], []⟩, ⟨[], [], []⟩, [], [], 0, 0⟩ =
      Res.ok () ⟨⟨[], []⟩, ⟨[], [], []⟩,
        [ "    ⚠️  Linked GitHub issue not found for: " ++ "Task"], [], 0, 0⟩
    ∧ (resWorld (SyncEngine.syncOneAction ⟨false, fun _ => false, 1000⟩ []
        ⟨ "g1", 1, "Alpha", "u", none, some 0⟩ "chittyreception"
        ⟨ "a1", "Task", "In Progress", some "n1", none, none, none, none,
          none, some 100⟩
        ⟨⟨[], []⟩, ⟨[], [], []⟩, [], [], 0, 0⟩)).github.issues.length = 1
    ∧ (resWorld (SyncEngine.syncOneAction ⟨false, fun _ => false, 1000⟩ []
        ⟨ "g1", 1, "Alpha", "u", none, some 0⟩ "chittyreception"
        ⟨ "a1", "Task", "In Progress", some "n1", none, none, none, none,
          none, some 100⟩
        ⟨⟨[], []⟩, ⟨[], [], []⟩, [], [], 0, 0⟩)).writes.length = 3 := by
  exact ⟨rfl, rfl, rfl⟩

set_option maxHeartbeats 1000000 in
/-- C9 counterexample: a completed run emits no itemized count summary.  Over
an empty store the completed dry run writes nothing and its console output is
eight lines ending in exactly the fixed completion and reminder lines; a dry
run over a store whose project and item would both be created produces
fourteen lines ending in exactly the same two fixed lines — the completion
output is the same fixed text regardless of how many entities were created,
linked, synced, conflicted or errored, so no counts are itemized. -/
theorem c9_summary_counterexample :
    Res.isOk (SyncEngine.run ⟨true, fun _ => false, 0⟩ "chittyreception"
      ⟨⟨[], []⟩, ⟨[], [], []⟩, [], [], 0, 0⟩) = true
    ∧ (resWorld (SyncEngine.run ⟨true, fun _ => false, 0⟩ "chittyreception"
        ⟨⟨[], []⟩, ⟨[], [], []⟩, [], [], 0, 0⟩)).writes = []
    ∧ (resWorld (SyncEngine.run ⟨true, fun _ => false, 0⟩ "chittyreception"
        ⟨⟨[], []⟩, ⟨[], [], []⟩, [], [], 0, 0⟩)).log.length = 8
    ∧ (resWorld (SyncEngine.run ⟨true, fun _ => false, 0⟩ "chittyreception"
        ⟨⟨[], []⟩, ⟨[], [], []⟩, [], [], 0, 0⟩)).log.drop 6 =
      [ "\n✅ Sync completed successfully!",
        "\n💡 Run with DRY_RUN=false to apply changes"]
    ∧ (resWorld (SyncEngine.run ⟨true, fun _ => false, 0⟩ "r"
        ⟨⟨[⟨ "n1", "Alpha", "In Progress", none, none, none, none, some 100⟩], []⟩,
          ⟨[], [], []⟩, [], [], 0, 0⟩)).log.length = 14
    ∧ (resWorld (SyncEngine.run ⟨true, fun _ => false, 0⟩ "r"
        ⟨⟨[⟨ "n1", "Alpha", "In Progress", none, none, none, none, some 100⟩], []⟩,
          ⟨[], [], []⟩, [], [], 0, 0⟩)).log.drop 12 =
      [ "\n✅ Sync completed successfully!",
        "\n💡 Run with DRY_RUN=false to apply changes"] := by
  exact ⟨rfl, rfl, rfl, rfl, rfl, rfl⟩


/-- C9 amended: every run that reaches completion ends its console output
with the fixed success line, followed under dry-run by the reminder line; the
engine maintains no counters and itemizes no counts of created, linked,
synced, conflicted or errored entities in that summary. -/
theorem c9_summary_amended (cfg : Config) (repo : String) (w : World)
    (hok : Res.isOk (SyncEngine.run cfg repo w) = true) :
    ∃ pre, (resWorld (SyncEngine.run cfg repo w)).log =
      pre ++ ( "\n✅ Sync completed successfully!" ::
        (if cfg.dryRun then [ "\n💡 Run with DRY_RUN=false to apply changes"] else [])) := by
  obtain ⟨w4, hcalls, hnotion, hrun⟩ := run_eq_tryCatch cfg repo w
  rw [hrun] at hok ⊢
  rw [tryCatchM_apply] at hok ⊢
  rw [bind_apply] at hok ⊢
  cases hs : SyncEngine.syncProjects cfg repo w4 with
  | err e w5 =>
    simp only [hs, bind_apply, logLine_apply, throwErr_apply, Res.isOk] at hok
    exact absurd hok (by simp)
  | ok a w5 =>
    simp only [hs]
    by_cases hdry : cfg.dryRun = true
    · exact ⟨w5.log, by simp [hdry]⟩
    · exact ⟨w5.log, by simp [hdry]⟩

/-- C9 amended witness: the empty-store dry run completes and its output ends
with the success and reminder lines. -/
theorem c9_summary_amended_witness :
    ∃ pre, (resWorld (SyncEngine.run ⟨true, fun _ => false, 0⟩ "chittyreception"
        ⟨⟨[], []⟩, ⟨[], [], []⟩, [], [], 0, 0⟩)).log =
      pre ++ ( "\n✅ Sync completed successfully!" ::
        (if (⟨true, fun _ => false, 0⟩ : Config).dryRun then
          [ "\n💡 Run with DRY_RUN=false to apply changes"] else [])) :=
  c9_summary_amended ⟨true, fun _ => false, 0⟩ "chittyreception"
    ⟨⟨[], []⟩, ⟨[], [], []⟩, [], [], 0, 0⟩ rfl

/-- C5 counterexample: per-entity failure logging does not include the
entity's identifier for projects.  With every upstream call failing, the
per-project step catches the failure and returns normally, but the line its
catch logs is the fixed text with only the error message: it is
character-for-character identical for two projects with different names and
ids, so it carries no entity identifier (the name appears only in the
processing banner logged before the try). -/
theorem c5_identifier_logging_counterexample :
    Res.isOk (SyncEngine.syncOneProject ⟨false, fun _ => true, 0⟩ "chittyreception"
      ⟨ "n1", "Alpha", "In Progress", none, some "g1", some "u", none, some 100⟩
      ⟨⟨[], []⟩, ⟨[], [], []⟩, [], [], 0, 0⟩) = true
    ∧ (resWorld (SyncEngine.syncOneProject ⟨false, fun _ => true, 0⟩ "chittyreception"
        ⟨ "n1", "Alpha", "In Progress", none, some "g1", some "u", none, some 100⟩
        ⟨⟨[], []⟩, ⟨[], [], []⟩, [], [], 0, 0⟩)).log =
      [ "\n→ Processing: " ++ "Alpha",
        "  ✗ Error syncing project: " ++ "UpstreamUnavailable"]
    ∧ (resWorld (SyncEngine.syncOneProject ⟨false, fun _ => true, 0⟩ "chittyreception"
        ⟨ "n2", "Beta", "In Progress", none, some "g1", some "u", none, some 100⟩
        ⟨⟨[], []⟩, ⟨[], [], []⟩, [], [], 0, 0⟩)).log =
      [ "\n→ Processing: " ++ "Beta",
        "  ✗ Error syncing project: " ++ "UpstreamUnavailable"]
    ∧ (resWorld (SyncEngine.syncOneProject ⟨false, fun _ => true, 0⟩ "chittyreception"
        ⟨ "n1", "Alpha", "In Progress", none, some "g1", some "u", none, some 100⟩
        ⟨⟨[], []⟩, ⟨[], [], []⟩, [], [], 0, 0⟩)).log.drop 1 =
      (resWorld (SyncEngine.syncOneProject ⟨false, fun _ => true, 0⟩ "chittyreception"
        ⟨ "n2", "Beta", "In Progress", none, some "g1", some "u", none, some 100⟩
        ⟨⟨[], []⟩, ⟨[], [], []⟩, [], [], 0, 0⟩)).log.drop 1 := by
  exact ⟨rfl, rfl, rfl, rfl⟩

lemma syncOneProject_catch_logs (cfg : Config) (repo : String) (p : NotionProject)
    (v v1 : World) (e : String)
    (hb : SyncEngine.syncProjectBody cfg repo p
      { v with log := v.log ++ [ "\n→ Processing: " ++ p.name] } = Res.err e v1) :
    SyncEngine.syncOneProject cfg repo p v =
      Res.ok () { v1 with log := v1.log ++ [ "  ✗ Error syncing project: " ++ e] } := by
  simp only [SyncEngine.syncOneProject, bind_apply, logLine_apply, tryCatchM_apply, hb,
    logLine_apply]

lemma syncOneAction_catch_logs (cfg : Config) (gis : List GitHubIssue)
    (gp : GitHubProject) (repo : String) (a : NotionAction) (v v1 : World) (e : String)
    (hb : SyncEngine.syncActionBody cfg gis gp repo a v = Res.err e v1) :
    SyncEngine.syncOneAction cfg gis gp repo a v =
      Res.ok () { v1 with log := v1.log ++
        [ "    ✗ Error syncing action " ++ a.title ++ ": " ++ e] } := by
  simp only [SyncEngine.syncOneAction, tryCatchM_apply, hb, logLine_apply]

/-- C5 amended: a per-entity failure is caught at the engine boundary and the
run proceeds — the run returns abnormally exactly when the very first
upstream request (the initial project listing) fails, and a completed run has
processed (logged the banner of) every source project.  The catch logging
differs by entity kind: a failing item is logged with its title, but a
failing project is logged with the fixed error-only line (its identity is
visible only from the processing banner logged just before the try). -/
theorem c5_partial_failure_isolation_amended (cfg : Config) (repo : String)
    (w : World) (hc : w.calls = 0) :
    Res.isOk (SyncEngine.run cfg repo w) = ! cfg.fails 0
    ∧ (Res.isOk (SyncEngine.run cfg repo w) = true →
        ∀ p ∈ w.notion.projects,
          ( "\n→ Processing: " ++ p.name) ∈ (resWorld (SyncEngine.run cfg repo w)).log)
    ∧ (∀ p : NotionProject, ∀ v v1 : World, ∀ e : String,
        SyncEngine.syncProjectBody cfg repo p
          { v with log := v.log ++ [ "\n→ Processing: " ++ p.name] } = Res.err e v1 →
        SyncEngine.syncOneProject cfg repo p v =
          Res.ok () { v1 with log := v1.log ++ [ "  ✗ Error syncing project: " ++ e] })
    ∧ (∀ gis : List GitHubIssue, ∀ gp : GitHubProject, ∀ a : NotionAction,
        ∀ v v1 : World, ∀ e : String,
        SyncEngine.syncActionBody cfg gis gp repo a v = Res.err e v1 →
        SyncEngine.syncOneAction cfg gis gp repo a v =
          Res.ok () { v1 with log := v1.log ++
            [ "    ✗ Error syncing action " ++ a.title ++ ": " ++ e] }) := by
  obtain ⟨h1, h2⟩ := run_isolation_core cfg repo w hc
  exact ⟨h1, h2,
    fun p v v1 e hb => syncOneProject_catch_logs cfg repo p v v1 e hb,
    fun gis gp a v v1 e hb => syncOneAction_catch_logs cfg gis gp repo a v v1 e hb⟩

/-- C5 amended witness: a healthy live run over one project completes,
logging that project's banner, and the instantiated catch-logging rules hold. -/
theorem c5_partial_failure_isolation_amended_witness :
    Res.isOk (SyncEngine.run ⟨false, fun _ => false, 1000⟩ "chittyreception"
      ⟨⟨[⟨ "n1", "Alpha", "In Progress", none, none, none, none, some 100⟩], []⟩,
        ⟨[], [], []⟩, [], [], 0, 0⟩) = ! (⟨false, fun _ => false, 1000⟩ : Config).fails 0
    ∧ (Res.isOk (SyncEngine.run ⟨false, fun _ => false, 1000⟩ "chittyreception"
        ⟨⟨[⟨ "n1", "Alpha", "In Progress", none, none, none, none, some 100⟩], []⟩,
          ⟨[], [], []⟩, [], [], 0, 0⟩) = true →
      ∀ p ∈ (⟨⟨[⟨ "n1", "Alpha", "In Progress", none, none, none, none, some 100⟩], []⟩,
          ⟨[], [], []⟩, [], [], 0, 0⟩ : World).notion.projects,
        ( "\n→ Processing: " ++ p.name) ∈
          (resWorld (SyncEngine.run ⟨false, fun _ => false, 1000⟩ "chittyreception"
            ⟨⟨[⟨ "n1", "Alpha", "In Progress", none, none, none, none, some 100⟩], []⟩,
              ⟨[], [], []⟩, [], [], 0, 0⟩)).log)
    ∧ (∀ p : NotionProject, ∀ v v1 : World, ∀ e : String,
        SyncEngine.syncProjectBody ⟨false, fun _ => false, 1000⟩ "chittyreception" p
          { v with log := v.log ++ [ "\n→ Processing: " ++ p.name] } = Res.err e v1 →
        SyncEngine.syncOneProject ⟨false, fun _ => false, 1000⟩ "chittyreception" p v =
          Res.ok () { v1 with log := v1.log ++ [ "  ✗ Error syncing project: " ++ e] })
    ∧ (∀ gis : List GitHubIssue, ∀ gp : GitHubProject, ∀ a : NotionAction,
        ∀ v v1 : World, ∀ e : String,
        SyncEngine.syncActionBody ⟨false, fun _ => false, 1000⟩ gis gp "chittyreception"
          a v = Res.err e v1 →
        SyncEngine.syncOneAction ⟨false, fun _ => false, 1000⟩ gis gp "chittyreception"
          a v =
          Res.ok () { v1 with log := v1.log ++
            [ "    ✗ Error syncing action " ++ a.title ++ ": " ++ e] }) :=
  c5_partial_failure_isolation_amended ⟨false, fun _ => false, 1000⟩ "chittyreception"
    ⟨⟨[⟨ "n1", "Alpha", "In Progress", none, none, none, none, some 100⟩], []⟩,
      ⟨[], [], []⟩, [], [], 0, 0⟩ rfl
